import Mathlib

/-!
The logger `ks::Log::Logger` of `src/ks/KsLog.cpp`.

A shallow embedding of the logger of `ks_core`: the sink registry, the six
format-block chains, the six-bit level filter and the mutex of a `Logger`, the
administrative operations and the level entry points, each translated from its
body in `src/ks/KsLog.cpp`.

The header `ks/KsLog.hpp` (the `Level` enumeration, the `Mutex`, `Sink` and
`FormatBlock` interfaces and the class `Logger::Line`) is not among the sources;
what the code needs of it is modelled from the specification and marked so.
-/

set_option autoImplicit false

namespace ks
namespace Log

/-! ## Data model -/

/-- A sink as the logger holds it, a `shared_ptr<Sink>`. The logger only ever
compares two of them with `==`, which compares the stored addresses, so a sink
is represented by its address. -/
structure Sink where
  addr : Nat
deriving DecidableEq, Repr

/-- Modelled from the spec: the enumeration `Logger::Level` of `ks/KsLog.hpp`, a
closed enumeration TRACE, DEBUG, INFO, WARN, ERROR, FATAL with ordinals 0 to 5. -/
inductive Level where
  | TRACE
  | DEBUG
  | INFO
  | WARN
  | ERROR
  | FATAL
deriving DecidableEq, Repr

/-- Modelled from the spec: `static_cast<size_t>(level)`, the ordinal of a level
(TRACE = 0, ..., FATAL = 5), used as index into the filter and the chains. -/
def Level.toIdx : Level → Fin 6
  | Level.TRACE => 0
  | Level.DEBUG => 1
  | Level.INFO => 2
  | Level.WARN => 3
  | Level.ERROR => 4
  | Level.FATAL => 5

/-- One call received by a mutex. -/
inductive MutexCall where
  | lock
  | unlock
deriving DecidableEq, Repr

/-- Modelled from the spec: the `Mutex` interface of `ks/KsLog.hpp` with its two
variants, `MutexSTL` (a real lock, `thread_safe = true`) and `MutexDummy` (both
operations are no-ops, `thread_safe = false`). The object records the calls it
has received, oldest first; blocking of a real lock is not represented. -/
structure Mutex where
  thread_safe : Bool
  calls : List MutexCall
deriving DecidableEq, Repr

/-- Modelled from the spec: `Mutex::lock()`, recorded as one more call. -/
def Mutex.lock (m : Mutex) : Mutex :=
  { m with calls := m.calls ++ [MutexCall.lock] }

/-- Modelled from the spec: `Mutex::unlock()`, recorded as one more call. -/
def Mutex.unlock (m : Mutex) : Mutex :=
  { m with calls := m.calls ++ [MutexCall.unlock] }

/-- The lock-hold count of a mutex: the `lock()` calls it has received that no
`unlock()` call has matched yet. -/
def Mutex.holdCount (m : Mutex) : Int :=
  (m.calls.count MutexCall.lock : Int) - (m.calls.count MutexCall.unlock : Int)

/-- Modelled from the spec: the call `m_filter.set(pos)` on the six-bit filter,
whose declaration is in `ks/KsLog.hpp`: bit `pos` becomes set. -/
def bitset_set (bits : Fin 6 → Bool) (pos : Fin 6) : Fin 6 → Bool :=
  fun i => if i = pos then true else bits i

/-- Modelled from the spec: the call `m_filter.reset(pos)` on the six-bit filter,
whose declaration is in `ks/KsLog.hpp`: bit `pos` becomes clear. -/
def bitset_reset (bits : Fin 6 → Bool) (pos : Fin 6) : Fin 6 → Bool :=
  fun i => if i = pos then false else bits i

/-- Modelled from the spec: the members of `ks::Log::Logger`, declared in
`ks/KsLog.hpp` and used by every method of `KsLog.cpp`: the mutex, the ordered
sink registry, the six chains indexed by level ordinal and the six filter bits.
`FB` is the type of what a `unique_ptr<FormatBlock>` designates; the logger
stores the blocks and never calls into them. -/
structure Logger (FB : Type) where
  m_mutex : Mutex
  m_list_sinks : List Sink
  m_list_fb : Fin 6 → List FB
  m_filter : Fin 6 → Bool

/-- The target of the `std::vector<shared_ptr<Sink>> *` a Line is given. -/
inductive SinksPtr where
  | m_list_sinks
deriving DecidableEq, Repr

/-- The target of the `std::vector<unique_ptr<FormatBlock>> *` a Line is given:
one of the six chains. -/
inductive ChainPtr where
  | m_list_fb (level_int : Fin 6)
deriving DecidableEq, Repr

/-- The target of the `Mutex *` a Line is given. -/
inductive MutexPtr where
  | m_mutex
deriving DecidableEq, Repr

/-- Modelled from the spec: the class `Logger::Line` of `ks/KsLog.hpp`. It refers
to the logger's sink registry, to one chain and to the mutex, and owns the
resolved enabled flag and a private text buffer. -/
structure Line where
  m_list_sinks : SinksPtr
  m_list_fbs : ChainPtr
  m_mutex : MutexPtr
  m_enabled : Bool
  m_stream : String
deriving DecidableEq, Repr

/-- Modelled from the spec: the constructor of `Logger::Line`, which stores its
four arguments and starts with an empty buffer. -/
def Line.create (list_sinks : SinksPtr) (list_fbs : ChainPtr) (mutex : MutexPtr)
    (enabled : Bool) : Line :=
  { m_list_sinks := list_sinks, m_list_fbs := list_fbs, m_mutex := mutex,
    m_enabled := enabled, m_stream := "" }

variable {FB : Type}

/-! ## Construction -/

/-- The default constructor `Logger::Logger()`: a `MutexSTL`, no sink, empty
chains, and the six `set` calls on a filter that starts all clear. -/
def Logger.Logger_default : Logger FB :=
  let m_mutex : Mutex := { thread_safe := true, calls := [] }
  let m_filter : Fin 6 → Bool := fun _ => false
  let m_filter := bitset_set m_filter Level.TRACE.toIdx
  let m_filter := bitset_set m_filter Level.DEBUG.toIdx
  let m_filter := bitset_set m_filter Level.INFO.toIdx
  let m_filter := bitset_set m_filter Level.WARN.toIdx
  let m_filter := bitset_set m_filter Level.ERROR.toIdx
  let m_filter := bitset_set m_filter Level.FATAL.toIdx
  { m_mutex := m_mutex, m_list_sinks := [], m_list_fb := fun _ => [],
    m_filter := m_filter }

/-- The inner loop of the second constructor: `push_back` of
`list_fbs[level][fb_idx]` onto the chain, for `fb_idx` from 0 upward. -/
def Logger.save_level_blocks : List FB → List FB → List FB
  | chain, [] => chain
  | chain, fb :: rest => Logger.save_level_blocks (chain ++ [fb]) rest

/-- The outer loop of the second constructor, `level` from 0 to 5. -/
def Logger.save_format_blocks (list_fbs : Fin 6 → List FB)
    (m_list_fb : Fin 6 → List FB) : Fin 6 → List FB :=
  (List.finRange 6).foldl
    (fun chains level => fun i =>
      if i = level then Logger.save_level_blocks (chains level) (list_fbs level)
      else chains i)
    m_list_fb

/-- The constructor `Logger::Logger(bool thread_safe, shared_ptr<Sink> const
&sink, std::array<std::vector<FormatBlock*>,6> && list_fbs)`. -/
def Logger.Logger_args (thread_safe : Bool) (sink : Sink)
    (list_fbs : Fin 6 → List FB) : Logger FB :=
  let m_mutex : Mutex :=
    if thread_safe then { thread_safe := true, calls := [] }
    else { thread_safe := false, calls := [] }
  -- save sink
  let m_list_sinks : List Sink := [] ++ [sink]
  -- save format blocks
  let m_list_fb := Logger.save_format_blocks list_fbs (fun _ => [])
  -- default filter is all on
  let m_filter : Fin 6 → Bool := fun _ => false
  let m_filter := bitset_set m_filter Level.TRACE.toIdx
  let m_filter := bitset_set m_filter Level.DEBUG.toIdx
  let m_filter := bitset_set m_filter Level.INFO.toIdx
  let m_filter := bitset_set m_filter Level.WARN.toIdx
  let m_filter := bitset_set m_filter Level.ERROR.toIdx
  let m_filter := bitset_set m_filter Level.FATAL.toIdx
  { m_mutex := m_mutex, m_list_sinks := m_list_sinks, m_list_fb := m_list_fb,
    m_filter := m_filter }

/-! ## Administrative operations -/

/-- The loop of `AddSink`: entries are visited from index 0 upward and the loop
leaves at the first one that compares equal to `new_sink`. The result tells
whether it left that way. -/
def Logger.AddSink_loop (new_sink : Sink) : List Sink → Bool
  | [] => false
  | sink :: rest =>
    if sink = new_sink then true else Logger.AddSink_loop new_sink rest

/-- The method `bool Logger::AddSink(shared_ptr<Sink> const &new_sink)`. -/
def Logger.AddSink (self : Logger FB) (new_sink : Sink) : Bool × Logger FB :=
  let self := { self with m_mutex := self.m_mutex.lock }
  if Logger.AddSink_loop new_sink self.m_list_sinks then
    (false, { self with m_mutex := self.m_mutex.unlock })
  else
    let self := { self with m_list_sinks := self.m_list_sinks ++ [new_sink] }
    (true, { self with m_mutex := self.m_mutex.unlock })

/-- The loop of `RemoveSink`: the iterator walks from `begin()`; the result is
the position, counted from `sink_it`, of the first entry equal to `sink`, or
`none` when the iterator reaches `end()`. -/
def Logger.RemoveSink_loop (sink : Sink) : List Sink → Nat → Option Nat
  | [], _ => none
  | entry :: rest, sink_it =>
    if entry = sink then some sink_it
    else Logger.RemoveSink_loop sink rest (sink_it + 1)

/-- The method `bool Logger::RemoveSink(shared_ptr<Sink> const &sink)`. -/
def Logger.RemoveSink (self : Logger FB) (sink : Sink) : Bool × Logger FB :=
  let self := { self with m_mutex := self.m_mutex.lock }
  match Logger.RemoveSink_loop sink self.m_list_sinks 0 with
  | some sink_it =>
    let self := { self with m_list_sinks := self.m_list_sinks.eraseIdx sink_it }
    (true, { self with m_mutex := self.m_mutex.unlock })
  | none =>
    (false, { self with m_mutex := self.m_mutex.unlock })

/-- The method `void Logger::SetLevel(Level level)`. -/
def Logger.SetLevel (self : Logger FB) (level : Level) : Logger FB :=
  let self := { self with m_mutex := self.m_mutex.lock }
  let self := { self with m_filter := bitset_set self.m_filter level.toIdx }
  { self with m_mutex := self.m_mutex.unlock }

/-- The method `void Logger::UnsetLevel(Level level)`. -/
def Logger.UnsetLevel (self : Logger FB) (level : Level) : Logger FB :=
  let self := { self with m_mutex := self.m_mutex.lock }
  let self := { self with m_filter := bitset_reset self.m_filter level.toIdx }
  { self with m_mutex := self.m_mutex.unlock }

/-- The method `void Logger::AddFormatBlock(unique_ptr<FormatBlock> fb, Level level)`. -/
def Logger.AddFormatBlock (self : Logger FB) (fb : FB) (level : Level) :
    Logger FB :=
  let self := { self with m_mutex := self.m_mutex.lock }
  let self := { self with
    m_list_fb := fun i =>
      if i = level.toIdx then self.m_list_fb level.toIdx ++ [fb]
      else self.m_list_fb i }
  { self with m_mutex := self.m_mutex.unlock }

/-! ## Level entry points -/

/-- The method `Logger::Line Logger::Custom(Level level)`. -/
def Logger.Custom (self : Logger FB) (level : Level) : Line × Logger FB :=
  let self := { self with m_mutex := self.m_mutex.lock }
  let level_int := level.toIdx
  (Line.create SinksPtr.m_list_sinks (ChainPtr.m_list_fb level_int)
      MutexPtr.m_mutex (self.m_filter level_int), self)

/-- The method `Logger::Line Logger::Trace()`. -/
def Logger.Trace (self : Logger FB) : Line × Logger FB :=
  let self := { self with m_mutex := self.m_mutex.lock }
  let level := Level.TRACE.toIdx
  (Line.create SinksPtr.m_list_sinks (ChainPtr.m_list_fb level)
      MutexPtr.m_mutex (self.m_filter level), self)

/-- The method `Logger::Line Logger::Debug()`. -/
def Logger.Debug (self : Logger FB) : Line × Logger FB :=
  let self := { self with m_mutex := self.m_mutex.lock }
  let level := Level.DEBUG.toIdx
  (Line.create SinksPtr.m_list_sinks (ChainPtr.m_list_fb level)
      MutexPtr.m_mutex (self.m_filter level), self)

/-- The method `Logger::Line Logger::Info()`. -/
def Logger.Info (self : Logger FB) : Line × Logger FB :=
  let self := { self with m_mutex := self.m_mutex.lock }
  let level := Level.INFO.toIdx
  (Line.create SinksPtr.m_list_sinks (ChainPtr.m_list_fb level)
      MutexPtr.m_mutex (self.m_filter level), self)

/-- The method `Logger::Line Logger::Warn()`. -/
def Logger.Warn (self : Logger FB) : Line × Logger FB :=
  let self := { self with m_mutex := self.m_mutex.lock }
  let level := Level.WARN.toIdx
  (Line.create SinksPtr.m_list_sinks (ChainPtr.m_list_fb level)
      MutexPtr.m_mutex (self.m_filter level), self)

/-- The method `Logger::Line Logger::Error()`. -/
def Logger.Error (self : Logger FB) : Line × Logger FB :=
  let self := { self with m_mutex := self.m_mutex.lock }
  let level := Level.ERROR.toIdx
  (Line.create SinksPtr.m_list_sinks (ChainPtr.m_list_fb level)
      MutexPtr.m_mutex (self.m_filter level), self)

/-- The method `Logger::Line Logger::Fatal()`. -/
def Logger.Fatal (self : Logger FB) : Line × Logger FB :=
  let self := { self with m_mutex := self.m_mutex.lock }
  let level := Level.FATAL.toIdx
  (Line.create SinksPtr.m_list_sinks (ChainPtr.m_list_fb level)
      MutexPtr.m_mutex (self.m_filter level), self)

/-- The named entry point of a level: `Trace` for TRACE, ..., `Fatal` for FATAL. -/
def Logger.entry_point (self : Logger FB) : Level → Line × Logger FB
  | Level.TRACE => self.Trace
  | Level.DEBUG => self.Debug
  | Level.INFO => self.Info
  | Level.WARN => self.Warn
  | Level.ERROR => self.Error
  | Level.FATAL => self.Fatal

/-! ## The Line of a statement -/

/-- The registry a Line refers to, read in the logger it was created by. -/
def SinksPtr.deref (p : SinksPtr) (logger : Logger FB) : List Sink :=
  match p with
  | SinksPtr.m_list_sinks => logger.m_list_sinks

/-- The chain a Line refers to, read in the logger it was created by. -/
def ChainPtr.deref (p : ChainPtr) (logger : Logger FB) : List FB :=
  match p with
  | ChainPtr.m_list_fb level_int => logger.m_list_fb level_int

/-- The mutex a Line refers to, read in the logger it was created by. -/
def MutexPtr.deref (p : MutexPtr) (logger : Logger FB) : Mutex :=
  match p with
  | MutexPtr.m_mutex => logger.m_mutex

/-- Modelled from the spec: the append operation of `Logger::Line` (section 4.5).
On a disabled Line it does nothing; on an enabled one the text of the value is
appended to the private buffer. `text` is the textual form of the value. -/
def Line.append (self : Line) (text : String) : Line :=
  if self.m_enabled then { self with m_stream := self.m_stream ++ text }
  else self

/-- What the destruction of a Line did: the blocks whose render was called, in
call order, the `write` calls made (sink and text), in call order, and the
logger it leaves. -/
structure Flushed (FB : Type) where
  renders : List FB
  writes : List (Sink × String)
  logger : Logger FB

/-- Modelled from the spec: the composition step of the destruction of a Line
(section 4.5): every block of the chain is rendered in order, the outputs are
concatenated, and the accumulated buffer follows. `Get` gives the string a
block's render returns. -/
def Line.compose (Get : FB → String) (chain : List FB) (content : String) :
    String :=
  chain.foldl (fun line fb => line ++ Get fb) "" ++ content

/-- Modelled from the spec: the destruction of a `Logger::Line` (section 4.5). An
enabled Line composes its line and passes it to `write` on every sink of the
bound registry in registry order; a disabled Line skips both. In all cases the
bound mutex is unlocked once. `logger` is the logger the Line was created by,
as it is when the Line is destroyed. -/
def Line.destroy (self : Line) (logger : Logger FB) (Get : FB → String) :
    Flushed FB :=
  let unlocked : Logger FB :=
    match self.m_mutex with
    | MutexPtr.m_mutex => { logger with m_mutex := logger.m_mutex.unlock }
  if self.m_enabled then
    let chain := self.m_list_fbs.deref logger
    let line := Line.compose Get chain self.m_stream
    { renders := chain,
      writes := (self.m_list_sinks.deref logger).map (fun sink => (sink, line)),
      logger := unlocked }
  else
    { renders := [], writes := [], logger := unlocked }

/-- One log statement `logger.Entry() << t1 << t2 << ...;`: the entry point
returns the Line, the texts are appended in order, and the Line is destroyed at
the end of the statement. -/
def Logger.statement (self : Logger FB) (entry : Logger FB → Line × Logger FB)
    (texts : List String) (Get : FB → String) : Flushed FB :=
  let started := entry self
  (texts.foldl Line.append started.1).destroy started.2 Get

/-! ## Sequences of calls -/

/-- The calls a client can make on a logger. A level entry point stands for the
whole statement it opens, with the texts appended to its Line. -/
inductive Call (FB : Type) where
  | AddSink (sink : Sink)
  | RemoveSink (sink : Sink)
  | SetLevel (level : Level)
  | UnsetLevel (level : Level)
  | AddFormatBlock (fb : FB) (level : Level)
  | Custom (level : Level) (texts : List String)
  | Trace (texts : List String)
  | Debug (texts : List String)
  | Info (texts : List String)
  | Warn (texts : List String)
  | Error (texts : List String)
  | Fatal (texts : List String)

/-- The logger after one call. -/
def Logger.call (Get : FB → String) (self : Logger FB) : Call FB → Logger FB
  | Call.AddSink sink => (self.AddSink sink).2
  | Call.RemoveSink sink => (self.RemoveSink sink).2
  | Call.SetLevel level => self.SetLevel level
  | Call.UnsetLevel level => self.UnsetLevel level
  | Call.AddFormatBlock fb level => self.AddFormatBlock fb level
  | Call.Custom level texts =>
    (self.statement (fun lg => lg.Custom level) texts Get).logger
  | Call.Trace texts => (self.statement Logger.Trace texts Get).logger
  | Call.Debug texts => (self.statement Logger.Debug texts Get).logger
  | Call.Info texts => (self.statement Logger.Info texts Get).logger
  | Call.Warn texts => (self.statement Logger.Warn texts Get).logger
  | Call.Error texts => (self.statement Logger.Error texts Get).logger
  | Call.Fatal texts => (self.statement Logger.Fatal texts Get).logger

/-- The logger after a sequence of calls, made in order. -/
def Logger.calls (Get : FB → String) (self : Logger FB) (cs : List (Call FB)) :
    Logger FB :=
  cs.foldl (Logger.call Get) self

/-- The blocks that the `AddFormatBlock(_, level)` calls of a sequence add to the
chain of `level`, in call order. -/
def Call.added (level : Level) : List (Call FB) → List FB
  | [] => []
  | Call.AddFormatBlock fb l :: rest =>
    if l = level then fb :: Call.added level rest else Call.added level rest
  | _ :: rest => Call.added level rest

/-! ## The two reference format blocks -/

/-- The members of `FBRunTimeMs` as its constructor initialises them: the text
buffer `m_time_str`, the reference instant `m_start` (in ticks of
`std::chrono::system_clock`) and the digit table `m_list_num_chars`. -/
structure FBRunTimeMs where
  m_time_str : List Char
  m_start : Int
  m_list_num_chars : List Char
deriving DecidableEq, Repr

/-- The constructor `FBRunTimeMs::FBRunTimeMs()`; `now` is what
`std::chrono::system_clock::now()` returns when it runs. -/
def FBRunTimeMs.create (now : Int) : FBRunTimeMs :=
  { m_time_str := "00:00:00.000".toList,
    m_start := now,
    m_list_num_chars := ['0', '1', '2', '3', '4', '5', '6', '7', '8', '9'] }

/-- The method `std::string FBRunTimeMs::Get()`. `now` is the reading of
`system_clock::now()` and `ticks_per_ms` the number of clock ticks in one
millisecond (the clock's period is the platform's). `duration_cast` truncates
toward zero; `uint_fast8_t` is taken 8 bits wide and `uint_fast16_t` 16 bits
wide, a conversion to them reducing modulo `2^8` and `2^16`. A lookup in the
ten-entry digit table at an index past its end has no defined result: `none`. -/
def FBRunTimeMs.Get (self : FBRunTimeMs) (ticks_per_ms : Nat) (now : Int) :
    Option (String × FBRunTimeMs) :=
  let elapsed : Int := now - self.m_start
  let hours : Int := elapsed.tdiv (3600000 * ticks_per_ms)
  let elapsed := elapsed - hours * (3600000 * ticks_per_ms)
  let mins : Int := elapsed.tdiv (60000 * ticks_per_ms)
  let elapsed := elapsed - mins * (60000 * ticks_per_ms)
  let secs : Int := elapsed.tdiv (1000 * ticks_per_ms)
  let elapsed := elapsed - secs * (1000 * ticks_per_ms)
  let ms : Int := elapsed.tdiv ticks_per_ms
  let hours_count : Nat := (hours % 2 ^ 8).toNat
  let mins_count : Nat := (mins % 2 ^ 8).toNat
  let secs_count : Nat := (secs % 2 ^ 8).toNat
  let ms_count : Nat := (ms % 2 ^ 16).toNat
  do
    let c ← self.m_list_num_chars[hours_count / 10]?
    let m_time_str := self.m_time_str.set 0 c
    let c ← self.m_list_num_chars[hours_count % 10]?
    let m_time_str := m_time_str.set 1 c
    let c ← self.m_list_num_chars[mins_count / 10]?
    let m_time_str := m_time_str.set 3 c
    let c ← self.m_list_num_chars[mins_count % 10]?
    let m_time_str := m_time_str.set 4 c
    let c ← self.m_list_num_chars[secs_count / 10]?
    let m_time_str := m_time_str.set 6 c
    let c ← self.m_list_num_chars[secs_count % 10]?
    let m_time_str := m_time_str.set 7 c
    let c ← self.m_list_num_chars[ms_count / 100]?
    let m_time_str := m_time_str.set 9 c
    let c ← self.m_list_num_chars[(ms_count % 100) / 10]?
    let m_time_str := m_time_str.set 10 c
    let c ← self.m_list_num_chars[(ms_count % 100) % 10]?
    let m_time_str := m_time_str.set 11 c
    pure (String.mk m_time_str, { self with m_time_str := m_time_str })

/-- A sequence of `Get` calls on one block, at the given clock readings in
order: the block after the last call, or `none` when a call has no result. -/
def FBRunTimeMs.Gets (ticks_per_ms : Nat) : FBRunTimeMs → List Int → Option FBRunTimeMs
  | self, [] => some self
  | self, now :: rest =>
    match self.Get ticks_per_ms now with
    | some r => FBRunTimeMs.Gets ticks_per_ms r.2 rest
    | none => none

/-- The shape every `FBRunTimeMs` has between calls: a buffer of 12 characters
with `:` at positions 2 and 5 and `.` at position 8, and the digit table. -/
def FBRunTimeMs.wf (self : FBRunTimeMs) : Prop :=
  self.m_time_str.length = 12 ∧
  self.m_time_str[2]? = some ':' ∧
  self.m_time_str[5]? = some ':' ∧
  self.m_time_str[8]? = some '.' ∧
  self.m_list_num_chars = ['0', '1', '2', '3', '4', '5', '6', '7', '8', '9']

/-- The decimal writing of `n`, padded with zeros on the left to `width`
characters. -/
def zero_padded (width n : Nat) : List Char :=
  List.replicate (width - (Nat.toDigits 10 n).length) '0' ++ Nat.toDigits 10 n

/-- The stamp `HH:MM:SS.mmm` of `t` whole milliseconds as the specification words
it: hours `t / 3600000`, minutes `(t / 60000) mod 60`, seconds `(t / 1000) mod
60` and milliseconds `t mod 1000`, zero-padded to 2, 2, 2 and 3 digits. -/
def HH_MM_SS_mmm (t : Nat) : String :=
  String.mk (zero_padded 2 (t / 3600000) ++ [':'] ++ zero_padded 2 (t / 60000 % 60)
    ++ [':'] ++ zero_padded 2 (t / 1000 % 60) ++ ['.'] ++ zero_padded 3 (t % 1000))

/-- The member of `FBCustomStr`: the literal it was constructed with. -/
structure FBCustomStr where
  m_s : String
deriving DecidableEq, Repr

/-- The constructor `FBCustomStr::FBCustomStr(std::string const &s)`. -/
def FBCustomStr.create (s : String) : FBCustomStr :=
  { m_s := s }

/-- The method `std::string FBCustomStr::Get()`: the string returned, and the
block after the call. -/
def FBCustomStr.Get (self : FBCustomStr) : String × FBCustomStr :=
  (self.m_s, self)

/-- The strings returned by `n` calls of `Get` in a row, oldest first, and the
block after the last. -/
def FBCustomStr.Gets : FBCustomStr → Nat → List String × FBCustomStr
  | self, 0 => ([], self)
  | self, n + 1 =>
    let r := self.Get
    let rest := FBCustomStr.Gets r.2 n
    (r.1 :: rest.1, rest.2)

/-- The blocks behind the `FormatBlock *` pointers that `KsLog.cpp` creates. -/
inductive FormatBlock where
  | FBRunTimeMs (fb : FBRunTimeMs)
  | FBCustomStr (fb : FBCustomStr)
deriving DecidableEq, Repr

/-! ## The process-wide logger -/

/-- The global `ks::LOG`. `sink` is the address `make_shared` returns for the
default sink (`SinkToStdOut`, or `SinkToLogCat` on Android), and `now level` is
the clock reading when the `FBRunTimeMs` of row `level` is constructed. -/
def LOG (sink : Sink) (now : Fin 6 → Int) : Logger FormatBlock :=
  Logger.Logger_args true sink
    (fun level =>
      match level with
      | 0 => [FormatBlock.FBRunTimeMs (FBRunTimeMs.create (now 0)),
              FormatBlock.FBCustomStr (FBCustomStr.create ": TRACE: KS: ")]
      | 1 => [FormatBlock.FBRunTimeMs (FBRunTimeMs.create (now 1)),
              FormatBlock.FBCustomStr (FBCustomStr.create ": DEBUG: KS: ")]
      | 2 => [FormatBlock.FBRunTimeMs (FBRunTimeMs.create (now 2)),
              FormatBlock.FBCustomStr (FBCustomStr.create ": INFO:  KS: ")]
      | 3 => [FormatBlock.FBRunTimeMs (FBRunTimeMs.create (now 3)),
              FormatBlock.FBCustomStr (FBCustomStr.create ": WARN:  KS: ")]
      | 4 => [FormatBlock.FBRunTimeMs (FBRunTimeMs.create (now 4)),
              FormatBlock.FBCustomStr (FBCustomStr.create ": ERROR: KS: ")]
      | 5 => [FormatBlock.FBRunTimeMs (FBRunTimeMs.create (now 5)),
              FormatBlock.FBCustomStr (FBCustomStr.create ": FATAL: KS: ")])

/-! ## What a call returns -/

/-- What a client observes of one call: the boolean of `AddSink` and
`RemoveSink`, nothing for the `void` methods, and for a level entry point the
Line it returns, the chain that Line refers to and the `write` calls of its
statement. -/
inductive Ret (FB : Type) where
  | bool (b : Bool)
  | void
  | line (ln : Line) (chain : List FB) (writes : List (Sink × String))

/-- The Line an entry point returns, the chain it refers to, and the `write`
calls of the statement that appends `texts` to it. -/
def Logger.statement_ret (self : Logger FB) (entry : Logger FB → Line × Logger FB)
    (texts : List String) (Get : FB → String) : Ret FB :=
  Ret.line (entry self).1 ((entry self).1.m_list_fbs.deref (entry self).2)
    (self.statement entry texts Get).writes

/-- What one call returns. -/
def Logger.call_ret (Get : FB → String) (self : Logger FB) : Call FB → Ret FB
  | Call.AddSink sink => Ret.bool (self.AddSink sink).1
  | Call.RemoveSink sink => Ret.bool (self.RemoveSink sink).1
  | Call.SetLevel _ => Ret.void
  | Call.UnsetLevel _ => Ret.void
  | Call.AddFormatBlock _ _ => Ret.void
  | Call.Custom level texts => self.statement_ret (fun lg => lg.Custom level) texts Get
  | Call.Trace texts => self.statement_ret Logger.Trace texts Get
  | Call.Debug texts => self.statement_ret Logger.Debug texts Get
  | Call.Info texts => self.statement_ret Logger.Info texts Get
  | Call.Warn texts => self.statement_ret Logger.Warn texts Get
  | Call.Error texts => self.statement_ret Logger.Error texts Get
  | Call.Fatal texts => self.statement_ret Logger.Fatal texts Get

/-- What the calls of a sequence return, in call order. -/
def Logger.rets (Get : FB → String) : Logger FB → List (Call FB) → List (Ret FB)
  | _, [] => []
  | self, c :: cs =>
    Logger.call_ret Get self c :: Logger.rets Get (Logger.call Get self c) cs

/-! ## The order of lock, accesses and unlock -/

/-- The members of the logger that the mutex guards. -/
inductive Member where
  | m_list_sinks
  | m_list_fb
  | m_filter
deriving DecidableEq, Repr

/-- One step of an operation that matters for locking: a call on the mutex, or a
read or write of a guarded member. -/
inductive Event where
  | lock
  | unlock
  | access (member : Member)
deriving DecidableEq, Repr

/-- The calls on the mutex among a sequence of events, in order. -/
def Event.mutex_calls : List Event → List MutexCall
  | [] => []
  | Event.lock :: rest => MutexCall.lock :: Event.mutex_calls rest
  | Event.unlock :: rest => MutexCall.unlock :: Event.mutex_calls rest
  | Event.access _ :: rest => Event.mutex_calls rest

/-- The events of the loop of `AddSink`: each round reads `m_list_sinks.size()`
for the test and then `m_list_sinks[i]`; the loop leaves at the first entry
equal to `new_sink`, or at the test that fails. -/
def Logger.AddSink_loop_events (new_sink : Sink) : List Sink → List Event
  | [] => [Event.access Member.m_list_sinks]
  | sink :: rest =>
    Event.access Member.m_list_sinks :: Event.access Member.m_list_sinks ::
      (if sink = new_sink then [] else Logger.AddSink_loop_events new_sink rest)

/-- The events of `Logger::AddSink`, in program order, on the path it takes. -/
def Logger.AddSink_events (self : Logger FB) (new_sink : Sink) : List Event :=
  [Event.lock] ++ Logger.AddSink_loop_events new_sink self.m_list_sinks ++
    (if Logger.AddSink_loop new_sink self.m_list_sinks then [Event.unlock]
     else [Event.access Member.m_list_sinks, Event.unlock])

/-- The events of the loop of `RemoveSink`: each round reads `m_list_sinks.end()`
for the test and then the entry under the iterator; the loop leaves at the first
entry equal to `sink`, or at the test that fails. -/
def Logger.RemoveSink_loop_events (sink : Sink) : List Sink → List Event
  | [] => [Event.access Member.m_list_sinks]
  | entry :: rest =>
    Event.access Member.m_list_sinks :: Event.access Member.m_list_sinks ::
      (if entry = sink then [] else Logger.RemoveSink_loop_events sink rest)

/-- The events of `Logger::RemoveSink`, in program order, on the path it takes:
`lock()`, `m_list_sinks.begin()`, the loop, then `erase` and `unlock()` on a
match, or `unlock()` alone. -/
def Logger.RemoveSink_events (self : Logger FB) (sink : Sink) : List Event :=
  [Event.lock, Event.access Member.m_list_sinks] ++
    Logger.RemoveSink_loop_events sink self.m_list_sinks ++
    (match Logger.RemoveSink_loop sink self.m_list_sinks 0 with
     | some _ => [Event.access Member.m_list_sinks, Event.unlock]
     | none => [Event.unlock])

/-- The events of `Logger::SetLevel`, in program order. -/
def Logger.SetLevel_events (_self : Logger FB) (_level : Level) : List Event :=
  [Event.lock, Event.access Member.m_filter, Event.unlock]

/-- The events of `Logger::UnsetLevel`, in program order. -/
def Logger.UnsetLevel_events (_self : Logger FB) (_level : Level) : List Event :=
  [Event.lock, Event.access Member.m_filter, Event.unlock]

/-- The events of `Logger::AddFormatBlock`, in program order. -/
def Logger.AddFormatBlock_events (_self : Logger FB) (_fb : FB) (_level : Level) :
    List Event :=
  [Event.lock, Event.access Member.m_list_fb, Event.unlock]

/-! ## Theorems -/

/-- The loop of `AddSink` leaves early exactly when the sink is in the registry. -/
theorem AddSink_loop_eq_true_iff (s : Sink) (sinks : List Sink) :
    Logger.AddSink_loop s sinks = true ↔ s ∈ sinks := by
  induction sinks with
  | nil => simp [Logger.AddSink_loop]
  | cons x xs ih =>
    by_cases hx : x = s
    · simp [Logger.AddSink_loop, hx]
    · have hx' : ¬ s = x := fun h => hx h.symm
      simp [Logger.AddSink_loop, hx, hx', ih]

/-- The two cases of `AddSink`, by membership of the sink in the registry. -/
theorem AddSink_cases (self : Logger FB) (s : Sink) :
    (s ∈ self.m_list_sinks →
      (self.AddSink s).1 = false ∧
      (self.AddSink s).2.m_list_sinks = self.m_list_sinks ∧
      (self.AddSink s).2.m_list_fb = self.m_list_fb ∧
      (self.AddSink s).2.m_filter = self.m_filter) ∧
    (s ∉ self.m_list_sinks →
      (self.AddSink s).1 = true ∧
      (self.AddSink s).2.m_list_sinks = self.m_list_sinks ++ [s]) := by
  constructor
  · intro h
    have hl := (AddSink_loop_eq_true_iff s self.m_list_sinks).2 h
    simp [Logger.AddSink, hl]
  · intro h
    have hl : Logger.AddSink_loop s self.m_list_sinks = false := by
      cases hc : Logger.AddSink_loop s self.m_list_sinks with
      | false => rfl
      | true => exact absurd ((AddSink_loop_eq_true_iff s self.m_list_sinks).1 hc) h
    simp [Logger.AddSink, hl]

/-- C1: the call `AddSink(s)` on a registry that already holds a sink
identity-equal to `s` returns false and leaves the registry, the six chains and
the filter as they were; on a registry that holds none it returns true and the
new registry is the old one with `s` appended at the end. -/
theorem C1_AddSink (self : Logger FB) (s : Sink) :
    (s ∈ self.m_list_sinks →
      (self.AddSink s).1 = false ∧
      (self.AddSink s).2.m_list_sinks = self.m_list_sinks ∧
      (self.AddSink s).2.m_list_fb = self.m_list_fb ∧
      (self.AddSink s).2.m_filter = self.m_filter) ∧
    (s ∉ self.m_list_sinks →
      (self.AddSink s).1 = true ∧
      (self.AddSink s).2.m_list_sinks = self.m_list_sinks ++ [s]) :=
  AddSink_cases self s

/-- The loop of `RemoveSink` reaches `end()` exactly when no entry is the sink. -/
theorem RemoveSink_loop_eq_none_iff (s : Sink) (sinks : List Sink) (k : Nat) :
    Logger.RemoveSink_loop s sinks k = none ↔ s ∉ sinks := by
  induction sinks generalizing k with
  | nil => simp [Logger.RemoveSink_loop]
  | cons x xs ih =>
    by_cases hx : x = s
    · simp [Logger.RemoveSink_loop, hx]
    · have hx' : ¬ s = x := fun h => hx h.symm
      simp [Logger.RemoveSink_loop, hx, hx', ih]

/-- When the loop of `RemoveSink` stops at an entry, that entry is the first one
equal to the sink: the registry splits around it. -/
theorem RemoveSink_loop_eq_some (s : Sink) (sinks : List Sink) (k i : Nat)
    (h : Logger.RemoveSink_loop s sinks k = some i) :
    ∃ front back, sinks = front ++ s :: back ∧ s ∉ front ∧ i = k + front.length := by
  induction sinks generalizing k with
  | nil => simp [Logger.RemoveSink_loop] at h
  | cons x xs ih =>
    by_cases hx : x = s
    · refine ⟨[], xs, ?_, ?_, ?_⟩
      · simp [hx]
      · simp
      · simpa [Logger.RemoveSink_loop, hx, eq_comm] using h
    · have h2 : Logger.RemoveSink_loop s xs (k + 1) = some i := by
        simpa [Logger.RemoveSink_loop, hx] using h
      obtain ⟨front, back, h3, h4, h5⟩ := ih (k + 1) h2
      refine ⟨x :: front, back, ?_, ?_, ?_⟩
      · simp [h3]
      · have hx' : ¬ s = x := fun e => hx e.symm
        simp [hx', h4]
      · simp [h5]; omega

/-- Erasing the entry at the position where the front part ends. -/
theorem eraseIdx_front_length (s : Sink) (front back : List Sink) :
    (front ++ s :: back).eraseIdx front.length = front ++ back := by
  induction front with
  | nil => simp
  | cons x xs ih => simpa using ih

/-- C2: the call `RemoveSink(s)` returns true exactly when some registry entry is
identity-equal to `s`; when it returns true the new registry is the old one
without its first entry equal to `s`, all other entries in their old order;
when it returns false the registry is unchanged; the chains and the filter are
unchanged in both cases. -/
theorem C2_RemoveSink (self : Logger FB) (s : Sink) :
    ((self.RemoveSink s).1 = true ↔ s ∈ self.m_list_sinks) ∧
    ((self.RemoveSink s).1 = true →
      ∃ front back, self.m_list_sinks = front ++ s :: back ∧ s ∉ front ∧
        (self.RemoveSink s).2.m_list_sinks = front ++ back) ∧
    ((self.RemoveSink s).1 = false →
      (self.RemoveSink s).2.m_list_sinks = self.m_list_sinks) ∧
    (self.RemoveSink s).2.m_list_fb = self.m_list_fb ∧
    (self.RemoveSink s).2.m_filter = self.m_filter := by
  cases hl : Logger.RemoveSink_loop s self.m_list_sinks 0 with
  | none =>
    have hn := (RemoveSink_loop_eq_none_iff s self.m_list_sinks 0).1 hl
    simp [Logger.RemoveSink, hl, hn]
  | some i =>
    obtain ⟨front, back, h1, h2, h3⟩ := RemoveSink_loop_eq_some s self.m_list_sinks 0 i hl
    have hm : s ∈ self.m_list_sinks := by rw [h1]; simp
    have hi : i = front.length := by omega
    refine ⟨?_, ?_, ?_, ?_, ?_⟩
    · simp [Logger.RemoveSink, hl, hm]
    · intro _
      refine ⟨front, back, h1, h2, ?_⟩
      simp only [Logger.RemoveSink, hl]
      rw [h1, hi]
      exact eraseIdx_front_length s front back
    · simp [Logger.RemoveSink, hl]
    · simp [Logger.RemoveSink, hl]
    · simp [Logger.RemoveSink, hl]

/-- C3: on a logger whose registry does not hold `s`, two calls `AddSink(s)` in a
row return true and then false, the registry after the second call is the
registry after the first, and `s` is in it exactly once. -/
theorem C3_AddSink_twice (self : Logger FB) (s : Sink)
    (h : s ∉ self.m_list_sinks) :
    (self.AddSink s).1 = true ∧
    ((self.AddSink s).2.AddSink s).1 = false ∧
    ((self.AddSink s).2.AddSink s).2.m_list_sinks = (self.AddSink s).2.m_list_sinks ∧
    ((self.AddSink s).2.AddSink s).2.m_list_sinks.count s = 1 := by
  have h1 := (AddSink_cases self s).2 h
  have hin : s ∈ (self.AddSink s).2.m_list_sinks := by rw [h1.2]; simp
  have h2 := (AddSink_cases (self.AddSink s).2 s).1 hin
  refine ⟨h1.1, h2.1, h2.2.1, ?_⟩
  rw [h2.2.1, h1.2, List.count_append, List.count_eq_zero_of_not_mem h]
  simp

/-- C3 at a concrete logger: the default logger with one sink added, and a new
sink added to it twice. -/
theorem C3_AddSink_twice_witness :
    (⟨7⟩ : Sink) ∉ (Logger.Logger_args true ⟨1⟩ (fun _ => ([] : List String))).m_list_sinks ∧
    ((Logger.Logger_args true ⟨1⟩ (fun _ => ([] : List String))).AddSink ⟨7⟩).1 = true ∧
    (((Logger.Logger_args true ⟨1⟩ (fun _ => ([] : List String))).AddSink ⟨7⟩).2.AddSink ⟨7⟩).1
      = false ∧
    (((Logger.Logger_args true ⟨1⟩ (fun _ => ([] : List String))).AddSink ⟨7⟩).2.AddSink
      ⟨7⟩).2.m_list_sinks
      = ((Logger.Logger_args true ⟨1⟩ (fun _ => ([] : List String))).AddSink ⟨7⟩).2.m_list_sinks ∧
    (((Logger.Logger_args true ⟨1⟩ (fun _ => ([] : List String))).AddSink ⟨7⟩).2.AddSink
      ⟨7⟩).2.m_list_sinks.count ⟨7⟩ = 1 :=
  ⟨by decide, C3_AddSink_twice _ ⟨7⟩ (by decide)⟩

/-- C4: the call `SetLevel(L)` sets filter bit `L` and `UnsetLevel(L)` clears it;
each leaves the other five bits, the registry and the six chains as they were;
a second call in a row changes none of the filter, the registry and the chains. -/
theorem C4_SetLevel_UnsetLevel (self : Logger FB) (L : Level) :
    ((self.SetLevel L).m_filter L.toIdx = true ∧
      (∀ i, i ≠ L.toIdx → (self.SetLevel L).m_filter i = self.m_filter i) ∧
      (self.SetLevel L).m_list_sinks = self.m_list_sinks ∧
      (self.SetLevel L).m_list_fb = self.m_list_fb ∧
      ((self.SetLevel L).SetLevel L).m_filter = (self.SetLevel L).m_filter ∧
      ((self.SetLevel L).SetLevel L).m_list_sinks = (self.SetLevel L).m_list_sinks ∧
      ((self.SetLevel L).SetLevel L).m_list_fb = (self.SetLevel L).m_list_fb) ∧
    ((self.UnsetLevel L).m_filter L.toIdx = false ∧
      (∀ i, i ≠ L.toIdx → (self.UnsetLevel L).m_filter i = self.m_filter i) ∧
      (self.UnsetLevel L).m_list_sinks = self.m_list_sinks ∧
      (self.UnsetLevel L).m_list_fb = self.m_list_fb ∧
      ((self.UnsetLevel L).UnsetLevel L).m_filter = (self.UnsetLevel L).m_filter ∧
      ((self.UnsetLevel L).UnsetLevel L).m_list_sinks = (self.UnsetLevel L).m_list_sinks ∧
      ((self.UnsetLevel L).UnsetLevel L).m_list_fb = (self.UnsetLevel L).m_list_fb) := by
  refine ⟨⟨?_, ?_, rfl, rfl, ?_, rfl, rfl⟩, ⟨?_, ?_, rfl, rfl, ?_, rfl, rfl⟩⟩
  · simp [Logger.SetLevel, bitset_set]
  · intro i hi
    simp [Logger.SetLevel, bitset_set, hi]
  · funext i
    by_cases hi : i = L.toIdx <;> simp [Logger.SetLevel, bitset_set, hi]
  · simp [Logger.UnsetLevel, bitset_reset]
  · intro i hi
    simp [Logger.UnsetLevel, bitset_reset, hi]
  · funext i
    by_cases hi : i = L.toIdx <;> simp [Logger.UnsetLevel, bitset_reset, hi]

/-- Each named entry point does what `Custom` does at its level. -/
theorem entry_point_eq_Custom (self : Logger FB) (L : Level) :
    self.entry_point L = self.Custom L := by
  cases L <;> rfl

/-- Appending texts one after the other to a buffer appends their concatenation. -/
theorem foldl_append_eq_join (texts : List String) (acc : String) :
    texts.foldl (fun r t => r ++ t) acc = acc ++ String.join texts := by
  induction texts generalizing acc with
  | nil => simp [String.join]
  | cons t ts ih =>
    simp only [List.foldl_cons, String.join]
    rw [ih, ih ("" ++ t)]
    simp [String.append_assoc]

/-- The concatenation of a list of texts, one text at a time. -/
theorem join_cons (t : String) (ts : List String) :
    String.join (t :: ts) = t ++ String.join ts := by
  have h : String.join (t :: ts) = ts.foldl (fun r t => r ++ t) ("" ++ t) := rfl
  rw [h, foldl_append_eq_join]
  simp

/-- The appends of a statement on an enabled Line fill its buffer in order. -/
theorem foldl_Line_append_enabled (texts : List String) (ln : Line)
    (h : ln.m_enabled = true) :
    texts.foldl Line.append ln
      = { ln with m_stream := ln.m_stream ++ String.join texts } := by
  induction texts generalizing ln with
  | nil => simp [String.join]
  | cons t ts ih =>
    simp only [List.foldl_cons]
    have h1 : ln.append t = { ln with m_stream := ln.m_stream ++ t } := by
      simp [Line.append, h]
    rw [h1, ih { ln with m_stream := ln.m_stream ++ t } h]
    simp [join_cons, String.append_assoc]

/-- The appends of a statement leave a disabled Line as it was. -/
theorem foldl_Line_append_disabled (texts : List String) (ln : Line)
    (h : ln.m_enabled = false) :
    texts.foldl Line.append ln = ln := by
  induction texts with
  | nil => rfl
  | cons t ts ih =>
    simp only [List.foldl_cons]
    have h1 : ln.append t = ln := by simp [Line.append, h]
    rw [h1, ih]

/-- Rendering a chain in order gives the concatenation of the render outputs. -/
theorem compose_eq_join (Get : FB → String) (chain : List FB) (content : String) :
    Line.compose Get chain content = String.join (chain.map Get) ++ content := by
  have h : ∀ (l : List FB) (acc : String),
      l.foldl (fun line fb => line ++ Get fb) acc = acc ++ String.join (l.map Get) := by
    intro l
    induction l with
    | nil => intro acc; simp [String.join]
    | cons b bs ih =>
      intro acc
      simp only [List.foldl_cons, List.map_cons]
      rw [ih, join_cons]
      simp [String.append_assoc]
  simp [Line.compose, h]

/-- The statement of an enabled level: every block of the bound chain is rendered
once, in order, and every sink of the registry gets the one composed line. -/
theorem statement_enabled (self : Logger FB) (L : Level) (texts : List String)
    (Get : FB → String) (h : self.m_filter L.toIdx = true) :
    (self.statement (fun lg => lg.Custom L) texts Get).renders = self.m_list_fb L.toIdx ∧
    (self.statement (fun lg => lg.Custom L) texts Get).writes
      = self.m_list_sinks.map (fun sink =>
          (sink, String.join ((self.m_list_fb L.toIdx).map Get) ++ String.join texts)) := by
  have he : (self.Custom L).1.m_enabled = true := by simp [Logger.Custom, Line.create, h]
  simp only [Logger.statement]
  rw [foldl_Line_append_enabled texts _ he]
  simp [Line.destroy, compose_eq_join, Logger.Custom, Line.create, ChainPtr.deref,
    SinksPtr.deref, h]

/-- The statement of a disabled level renders no block and writes to no sink. -/
theorem statement_disabled (self : Logger FB) (L : Level) (texts : List String)
    (Get : FB → String) (h : self.m_filter L.toIdx = false) :
    (self.statement (fun lg => lg.Custom L) texts Get).renders = [] ∧
    (self.statement (fun lg => lg.Custom L) texts Get).writes = [] := by
  have he : (self.Custom L).1.m_enabled = false := by simp [Logger.Custom, Line.create, h]
  simp only [Logger.statement]
  rw [foldl_Line_append_disabled texts _ he]
  simp [Line.destroy, he]

/-- C5: after `SetLevel(L)` the Line of the entry point of `L` is enabled, and its
statement renders each block of the chain of `L` once and makes one `write` call
per registered sink, in registry order, each with the one composed line; after
`UnsetLevel(L)` the Line is disabled, and its statement makes no `write` call and
no render call. The same holds for `Custom(L)`. -/
theorem C5_filter_round_trip (self : Logger FB) (L : Level) (texts : List String)
    (Get : FB → String) :
    (((self.SetLevel L).entry_point L).1.m_enabled = true ∧
      ((self.SetLevel L).Custom L).1.m_enabled = true ∧
      ((self.SetLevel L).statement (fun lg => lg.entry_point L) texts Get).writes
        = self.m_list_sinks.map (fun sink =>
            (sink, String.join ((self.m_list_fb L.toIdx).map Get) ++ String.join texts)) ∧
      ((self.SetLevel L).statement (fun lg => lg.Custom L) texts Get).writes
        = self.m_list_sinks.map (fun sink =>
            (sink, String.join ((self.m_list_fb L.toIdx).map Get) ++ String.join texts)) ∧
      ((self.SetLevel L).statement (fun lg => lg.entry_point L) texts Get).writes.length
        = self.m_list_sinks.length ∧
      ((self.SetLevel L).statement (fun lg => lg.entry_point L) texts Get).renders
        = self.m_list_fb L.toIdx) ∧
    (((self.UnsetLevel L).entry_point L).1.m_enabled = false ∧
      ((self.UnsetLevel L).Custom L).1.m_enabled = false ∧
      ((self.UnsetLevel L).statement (fun lg => lg.entry_point L) texts Get).writes = [] ∧
      ((self.UnsetLevel L).statement (fun lg => lg.Custom L) texts Get).writes = [] ∧
      ((self.UnsetLevel L).statement (fun lg => lg.entry_point L) texts Get).renders = [] ∧
      ((self.UnsetLevel L).statement (fun lg => lg.Custom L) texts Get).renders = []) := by
  have hfun : (fun lg : Logger FB => lg.entry_point L) = (fun lg => lg.Custom L) :=
    funext (fun lg => entry_point_eq_Custom lg L)
  have hs : (self.SetLevel L).m_filter L.toIdx = true := by
    simp [Logger.SetLevel, bitset_set]
  have hu : (self.UnsetLevel L).m_filter L.toIdx = false := by
    simp [Logger.UnsetLevel, bitset_reset]
  have h1 := statement_enabled (self.SetLevel L) L texts Get hs
  have h2 := statement_disabled (self.UnsetLevel L) L texts Get hu
  have hsinks : (self.SetLevel L).m_list_sinks = self.m_list_sinks := rfl
  have hfb : (self.SetLevel L).m_list_fb = self.m_list_fb := rfl
  rw [hsinks, hfb] at h1
  rw [hfun, entry_point_eq_Custom, entry_point_eq_Custom]
  refine ⟨⟨?_, ?_, h1.2, h1.2, ?_, h1.1⟩, ⟨?_, ?_, h2.2, h2.2, h2.1, h2.1⟩⟩
  · simp [Logger.Custom, Line.create, hs]
  · simp [Logger.Custom, Line.create, hs]
  · rw [h1.2]; simp
  · simp [Logger.Custom, Line.create, hu]
  · simp [Logger.Custom, Line.create, hu]

/-- C6: right after construction, by the default constructor or by the one taking
`thread_safe`, a sink and the per-level chains (whatever their values), all six
filter bits TRACE, DEBUG, INFO, WARN, ERROR and FATAL are set. -/
theorem C6_filter_starts_all_set (thread_safe : Bool) (sink : Sink)
    (list_fbs : Fin 6 → List FB) :
    (∀ L : Level, (Logger.Logger_default : Logger FB).m_filter L.toIdx = true) ∧
    (∀ i : Fin 6, (Logger.Logger_default : Logger FB).m_filter i = true) ∧
    (∀ L : Level, (Logger.Logger_args thread_safe sink list_fbs).m_filter L.toIdx = true) ∧
    (∀ i : Fin 6, (Logger.Logger_args thread_safe sink list_fbs).m_filter i = true) := by
  refine ⟨?_, ?_, ?_, ?_⟩
  · intro L; cases L <;> rfl
  · intro i; fin_cases i <;> rfl
  · intro L; cases L <;> rfl
  · intro i; fin_cases i <;> rfl

/-- The ordinal of a level determines the level. -/
theorem Level.toIdx_injective (L L2 : Level) (h : L.toIdx = L2.toIdx) : L = L2 := by
  cases L <;> cases L2 <;> first | rfl | (exact absurd h (by decide))

/-- C8: the call `AddFormatBlock(b, L)` makes the chain of `L` its old contents
followed by `b`, and leaves the chains of the other five levels, the registry
and the filter as they were. -/
theorem C8_AddFormatBlock (self : Logger FB) (b : FB) (L : Level) :
    (self.AddFormatBlock b L).m_list_fb L.toIdx = self.m_list_fb L.toIdx ++ [b] ∧
    (∀ i : Fin 6, i ≠ L.toIdx → (self.AddFormatBlock b L).m_list_fb i = self.m_list_fb i) ∧
    (∀ L2 : Level, L2 ≠ L →
      (self.AddFormatBlock b L).m_list_fb L2.toIdx = self.m_list_fb L2.toIdx) ∧
    (self.AddFormatBlock b L).m_list_sinks = self.m_list_sinks ∧
    (self.AddFormatBlock b L).m_filter = self.m_filter := by
  refine ⟨?_, ?_, ?_, rfl, rfl⟩
  · simp [Logger.AddFormatBlock]
  · intro i hi
    simp [Logger.AddFormatBlock, hi]
  · intro L2 h2
    have hi : L2.toIdx ≠ L.toIdx := fun e => h2 (Level.toIdx_injective L2 L e)
    simp [Logger.AddFormatBlock, hi]

/-- C9: for every level `L` the named entry point of `L` returns what `Custom(L)`
returns: a Line that refers to the logger's registry, to the chain at index `L`
and to no other level's chain, and to the logger's mutex, with an empty buffer
and the enabled flag equal to filter bit `L`; the call leaves the registry, the
chains and the filter as they were. -/
theorem C9_entry_points (self : Logger FB) (L : Level) :
    self.entry_point L = self.Custom L ∧
    (self.Custom L).1
      = { m_list_sinks := SinksPtr.m_list_sinks,
          m_list_fbs := ChainPtr.m_list_fb L.toIdx,
          m_mutex := MutexPtr.m_mutex,
          m_enabled := self.m_filter L.toIdx,
          m_stream := "" } ∧
    (self.Custom L).1.m_list_sinks.deref (self.Custom L).2 = self.m_list_sinks ∧
    (self.Custom L).1.m_list_fbs.deref (self.Custom L).2 = self.m_list_fb L.toIdx ∧
    (∀ L2 : Level, (self.Custom L).1.m_list_fbs = ChainPtr.m_list_fb L2.toIdx ↔ L2 = L) ∧
    (self.Custom L).1.m_mutex.deref (self.Custom L).2 = (self.Custom L).2.m_mutex ∧
    (self.Custom L).2.m_list_sinks = self.m_list_sinks ∧
    (self.Custom L).2.m_list_fb = self.m_list_fb ∧
    (self.Custom L).2.m_filter = self.m_filter := by
  refine ⟨entry_point_eq_Custom self L, rfl, rfl, rfl, ?_, rfl, rfl, rfl, rfl⟩
  intro L2
  constructor
  · intro h
    have h1 : L.toIdx = L2.toIdx := by
      simpa [Logger.Custom, Line.create] using h
    exact (Level.toIdx_injective L L2 h1).symm
  · intro h
    rw [h]
    rfl

/-- C10: a call to `Custom(L)` or to the named entry point of `L` makes one
`lock()` call and no `unlock()` call on the logger's mutex, so the lock-hold
count is one higher on return; the mutex variant is unchanged, and the Line
returned refers to that mutex. -/
theorem C10_entry_points_lock (self : Logger FB) (L : Level) :
    ((self.Custom L).2.m_mutex.calls = self.m_mutex.calls ++ [MutexCall.lock] ∧
      (self.Custom L).2.m_mutex.holdCount = self.m_mutex.holdCount + 1 ∧
      (self.Custom L).2.m_mutex.thread_safe = self.m_mutex.thread_safe ∧
      (self.Custom L).1.m_mutex = MutexPtr.m_mutex ∧
      (self.Custom L).1.m_mutex.deref (self.Custom L).2 = (self.Custom L).2.m_mutex) ∧
    ((self.entry_point L).2.m_mutex.calls = self.m_mutex.calls ++ [MutexCall.lock] ∧
      (self.entry_point L).2.m_mutex.holdCount = self.m_mutex.holdCount + 1 ∧
      (self.entry_point L).2.m_mutex.thread_safe = self.m_mutex.thread_safe ∧
      (self.entry_point L).1.m_mutex = MutexPtr.m_mutex ∧
      (self.entry_point L).1.m_mutex.deref (self.entry_point L).2
        = (self.entry_point L).2.m_mutex) := by
  have hc : (self.Custom L).2.m_mutex.calls = self.m_mutex.calls ++ [MutexCall.lock] := rfl
  have hh : (self.Custom L).2.m_mutex.holdCount = self.m_mutex.holdCount + 1 := by
    simp only [Mutex.holdCount, hc, List.count_append]
    simp [List.count_cons]
    omega
  rw [entry_point_eq_Custom]
  exact ⟨⟨hc, hh, rfl, rfl, rfl⟩, ⟨hc, hh, rfl, rfl, rfl⟩⟩

/-- The inner loop of the constructor appends the seeded blocks in their order. -/
theorem save_level_blocks_eq (chain seeded : List FB) :
    Logger.save_level_blocks chain seeded = chain ++ seeded := by
  induction seeded generalizing chain with
  | nil => simp [Logger.save_level_blocks]
  | cons b bs ih => simp [Logger.save_level_blocks, ih]

/-- The loops of the constructor append to each chain the blocks seeded for it. -/
theorem save_format_blocks_eq (list_fbs chains : Fin 6 → List FB) (i : Fin 6) :
    Logger.save_format_blocks list_fbs chains i = chains i ++ list_fbs i := by
  have hr : List.finRange 6 = [0, 1, 2, 3, 4, 5] := by decide
  simp only [Logger.save_format_blocks, hr, List.foldl_cons, List.foldl_nil,
    save_level_blocks_eq]
  fin_cases i <;> simp

/-- The destruction of a Line leaves registry, chains and filter as they were. -/
theorem destroy_logger_frame (ln : Line) (lg : Logger FB) (Get : FB → String) :
    (ln.destroy lg Get).logger.m_list_sinks = lg.m_list_sinks ∧
    (ln.destroy lg Get).logger.m_list_fb = lg.m_list_fb ∧
    (ln.destroy lg Get).logger.m_filter = lg.m_filter := by
  unfold Line.destroy
  cases ln.m_enabled <;> simp

/-- A whole statement leaves registry, chains and filter as they were. -/
theorem statement_logger_frame (self : Logger FB) (L : Level) (texts : List String)
    (Get : FB → String) :
    (self.statement (fun lg => lg.Custom L) texts Get).logger.m_list_sinks
      = self.m_list_sinks ∧
    (self.statement (fun lg => lg.Custom L) texts Get).logger.m_list_fb = self.m_list_fb ∧
    (self.statement (fun lg => lg.Custom L) texts Get).logger.m_filter = self.m_filter := by
  simp only [Logger.statement]
  exact destroy_logger_frame _ _ Get

/-- One call extends the chain of a level by the block it adds there, if any. -/
theorem call_chain (Get : FB → String) (self : Logger FB) (c : Call FB) (L : Level) :
    (Logger.call Get self c).m_list_fb L.toIdx
      = self.m_list_fb L.toIdx ++ Call.added L [c] := by
  cases c with
  | AddSink sink =>
    simp only [Logger.call, Call.added, List.append_nil]
    by_cases h : Logger.AddSink_loop sink self.m_list_sinks = true <;>
      simp [Logger.AddSink, h]
  | RemoveSink sink =>
    simp only [Logger.call, Call.added, List.append_nil]
    cases hl : Logger.RemoveSink_loop sink self.m_list_sinks 0 <;>
      simp [Logger.RemoveSink, hl]
  | SetLevel level => simp [Logger.call, Call.added, Logger.SetLevel]
  | UnsetLevel level => simp [Logger.call, Call.added, Logger.UnsetLevel]
  | AddFormatBlock fb level =>
    by_cases h : level = L
    · subst h
      simp [Logger.call, Call.added, Logger.AddFormatBlock]
    · have hi : L.toIdx ≠ level.toIdx :=
        fun e => h (Level.toIdx_injective L level e).symm
      simp [Logger.call, Call.added, Logger.AddFormatBlock, h, hi]
  | Custom level texts =>
    simp only [Logger.call, Call.added, List.append_nil]
    rw [(statement_logger_frame self level texts Get).2.1]
  | Trace texts =>
    simp only [Logger.call, Call.added, List.append_nil]
    exact congrFun (statement_logger_frame self Level.TRACE texts Get).2.1 _
  | Debug texts =>
    simp only [Logger.call, Call.added, List.append_nil]
    exact congrFun (statement_logger_frame self Level.DEBUG texts Get).2.1 _
  | Info texts =>
    simp only [Logger.call, Call.added, List.append_nil]
    exact congrFun (statement_logger_frame self Level.INFO texts Get).2.1 _
  | Warn texts =>
    simp only [Logger.call, Call.added, List.append_nil]
    exact congrFun (statement_logger_frame self Level.WARN texts Get).2.1 _
  | Error texts =>
    simp only [Logger.call, Call.added, List.append_nil]
    exact congrFun (statement_logger_frame self Level.ERROR texts Get).2.1 _
  | Fatal texts =>
    simp only [Logger.call, Call.added, List.append_nil]
    exact congrFun (statement_logger_frame self Level.FATAL texts Get).2.1 _

/-- The blocks added by a sequence of calls, split at its first call. -/
theorem added_cons (L : Level) (c : Call FB) (cs : List (Call FB)) :
    Call.added L (c :: cs) = Call.added L [c] ++ Call.added L cs := by
  cases c with
  | AddFormatBlock fb level =>
    by_cases h : level = L <;> simp [Call.added, h]
  | _ => simp [Call.added]

/-- A sequence of calls extends the chain of a level by the blocks it adds there,
in call order. -/
theorem calls_chain (Get : FB → String) (self : Logger FB) (cs : List (Call FB))
    (L : Level) :
    (Logger.calls Get self cs).m_list_fb L.toIdx
      = self.m_list_fb L.toIdx ++ Call.added L cs := by
  induction cs generalizing self with
  | nil => simp [Logger.calls, Call.added]
  | cons c cs ih =>
    have h := ih (Logger.call Get self c)
    simp only [Logger.calls, List.foldl_cons] at h ⊢
    rw [h, call_chain, List.append_assoc, ← added_cons]

/-- C7: after construction and any sequence of calls, the chain of a level `L` is
the blocks seeded for `L` at construction (none for the default constructor), in
their given order, followed by the blocks the `AddFormatBlock(_, L)` calls
added, in call order; the Line of the entry point of `L` refers to that chain;
and when that Line is enabled, the line its statement writes to every sink is
the render outputs of those blocks, concatenated in that order, followed by the
accumulated content. -/
theorem C7_ordering (thread_safe : Bool) (sink : Sink) (list_fbs : Fin 6 → List FB)
    (cs : List (Call FB)) (Get : FB → String) (L : Level) (texts : List String) :
    (Logger.calls Get (Logger.Logger_args thread_safe sink list_fbs) cs).m_list_fb L.toIdx
      = list_fbs L.toIdx ++ Call.added L cs ∧
    (Logger.calls Get (Logger.Logger_default : Logger FB) cs).m_list_fb L.toIdx
      = Call.added L cs ∧
    (∀ lg : Logger FB,
      (lg.entry_point L).1.m_list_fbs.deref (lg.entry_point L).2 = lg.m_list_fb L.toIdx) ∧
    (((Logger.calls Get (Logger.Logger_args thread_safe sink list_fbs) cs).entry_point
        L).1.m_enabled = true →
      ((Logger.calls Get (Logger.Logger_args thread_safe sink list_fbs) cs).statement
          (fun lg => lg.entry_point L) texts Get).writes
        = (Logger.calls Get (Logger.Logger_args thread_safe sink list_fbs) cs).m_list_sinks.map
            (fun s => (s, String.join ((list_fbs L.toIdx ++ Call.added L cs).map Get)
              ++ String.join texts))) ∧
    (((Logger.calls Get (Logger.Logger_default : Logger FB) cs).entry_point
        L).1.m_enabled = true →
      ((Logger.calls Get (Logger.Logger_default : Logger FB) cs).statement
          (fun lg => lg.entry_point L) texts Get).writes
        = (Logger.calls Get (Logger.Logger_default : Logger FB) cs).m_list_sinks.map
            (fun s => (s, String.join ((Call.added L cs).map Get) ++ String.join texts))) := by
  have hfun : (fun lg : Logger FB => lg.entry_point L) = (fun lg => lg.Custom L) :=
    funext (fun lg => entry_point_eq_Custom lg L)
  have hseed : (Logger.Logger_args thread_safe sink list_fbs).m_list_fb L.toIdx
      = list_fbs L.toIdx := by
    simp [Logger.Logger_args, save_format_blocks_eq]
  have hA := calls_chain Get (Logger.Logger_args thread_safe sink list_fbs) cs L
  have hD := calls_chain Get (Logger.Logger_default : Logger FB) cs L
  rw [hseed] at hA
  have hD2 : (Logger.calls Get (Logger.Logger_default : Logger FB) cs).m_list_fb L.toIdx
      = Call.added L cs := by
    rw [hD]; simp [Logger.Logger_default]
  refine ⟨hA, hD2, ?_, ?_, ?_⟩
  · intro lg
    rw [entry_point_eq_Custom]
    rfl
  · intro he
    rw [entry_point_eq_Custom] at he
    have hf : (Logger.calls Get (Logger.Logger_args thread_safe sink list_fbs) cs).m_filter
        L.toIdx = true := he
    rw [hfun, (statement_enabled _ L texts Get hf).2, hA]
  · intro he
    rw [entry_point_eq_Custom] at he
    have hf : (Logger.calls Get (Logger.Logger_default : Logger FB) cs).m_filter
        L.toIdx = true := he
    rw [hfun, (statement_enabled _ L texts Get hf).2, hD2]

/-- C7 at the example of the specification: one sink, the chain of INFO seeded
with the literal block "INFO: ", a statement at INFO that appends "value=" and
then "42"; the line written is "INFO: value=42". -/
theorem C7_ordering_witness :
    ((Logger.calls (fun fb : String => fb)
        (Logger.Logger_args true ⟨0⟩ (fun i => if i = 2 then ["INFO: "] else []))
        []).entry_point Level.INFO).1.m_enabled = true ∧
    ((Logger.calls (fun fb : String => fb)
        (Logger.Logger_args true ⟨0⟩ (fun i => if i = 2 then ["INFO: "] else []))
        []).statement (fun lg => lg.entry_point Level.INFO) ["value=", "42"]
        (fun fb : String => fb)).writes
      = [((⟨0⟩ : Sink), "INFO: value=42")] :=
  ⟨by decide,
   ((C7_ordering true ⟨0⟩ (fun i => if i = 2 then ["INFO: "] else []) []
      (fun fb : String => fb) Level.INFO ["value=", "42"]).2.2.2.1 (by decide)).trans
     (by decide)⟩


/-- Two loggers that differ at most in the variant of their mutex. -/
theorem call_same_content (Get : FB → String) (a b : Logger FB) (c : Call FB)
    (h1 : a.m_list_sinks = b.m_list_sinks) (h2 : a.m_list_fb = b.m_list_fb)
    (h3 : a.m_filter = b.m_filter) (h4 : a.m_mutex.calls = b.m_mutex.calls) :
    Logger.call_ret Get a c = Logger.call_ret Get b c ∧
    (Logger.call Get a c).m_list_sinks = (Logger.call Get b c).m_list_sinks ∧
    (Logger.call Get a c).m_list_fb = (Logger.call Get b c).m_list_fb ∧
    (Logger.call Get a c).m_filter = (Logger.call Get b c).m_filter ∧
    (Logger.call Get a c).m_mutex.calls = (Logger.call Get b c).m_mutex.calls ∧
    (Logger.call Get a c).m_mutex.thread_safe = a.m_mutex.thread_safe ∧
    (Logger.call Get b c).m_mutex.thread_safe = b.m_mutex.thread_safe := by
  obtain ⟨⟨tsa, callsa⟩, sinksa, fba, filtera⟩ := a
  obtain ⟨⟨tsb, callsb⟩, sinksb, fbb, filterb⟩ := b
  simp only at h1 h2 h3 h4
  subst h1 h2 h3 h4
  cases c with
  | AddSink sink =>
    by_cases h : Logger.AddSink_loop sink sinksa = true <;>
      simp [Logger.call, Logger.call_ret, Logger.AddSink, Mutex.lock, Mutex.unlock, h]
  | RemoveSink sink =>
    cases hl : Logger.RemoveSink_loop sink sinksa 0 <;>
      simp [Logger.call, Logger.call_ret, Logger.RemoveSink, Mutex.lock, Mutex.unlock, hl]
  | SetLevel level =>
    simp [Logger.call, Logger.call_ret, Logger.SetLevel, Mutex.lock, Mutex.unlock]
  | UnsetLevel level =>
    simp [Logger.call, Logger.call_ret, Logger.UnsetLevel, Mutex.lock, Mutex.unlock]
  | AddFormatBlock fb level =>
    simp [Logger.call, Logger.call_ret, Logger.AddFormatBlock, Mutex.lock, Mutex.unlock]
  | Custom level texts =>
    cases hf : filtera level.toIdx <;>
      simp [Logger.call, Logger.call_ret, Logger.statement_ret, Logger.statement,
        Logger.Custom, Line.create, Line.destroy, ChainPtr.deref, SinksPtr.deref,
        Mutex.lock, Mutex.unlock, hf, foldl_Line_append_enabled,
        foldl_Line_append_disabled]
  | Trace texts =>
    cases hf : filtera Level.TRACE.toIdx <;>
      simp [Logger.call, Logger.call_ret, Logger.statement_ret, Logger.statement,
        Logger.Trace, Line.create, Line.destroy, ChainPtr.deref, SinksPtr.deref,
        Mutex.lock, Mutex.unlock, hf, foldl_Line_append_enabled,
        foldl_Line_append_disabled]
  | Debug texts =>
    cases hf : filtera Level.DEBUG.toIdx <;>
      simp [Logger.call, Logger.call_ret, Logger.statement_ret, Logger.statement,
        Logger.Debug, Line.create, Line.destroy, ChainPtr.deref, SinksPtr.deref,
        Mutex.lock, Mutex.unlock, hf, foldl_Line_append_enabled,
        foldl_Line_append_disabled]
  | Info texts =>
    cases hf : filtera Level.INFO.toIdx <;>
      simp [Logger.call, Logger.call_ret, Logger.statement_ret, Logger.statement,
        Logger.Info, Line.create, Line.destroy, ChainPtr.deref, SinksPtr.deref,
        Mutex.lock, Mutex.unlock, hf, foldl_Line_append_enabled,
        foldl_Line_append_disabled]
  | Warn texts =>
    cases hf : filtera Level.WARN.toIdx <;>
      simp [Logger.call, Logger.call_ret, Logger.statement_ret, Logger.statement,
        Logger.Warn, Line.create, Line.destroy, ChainPtr.deref, SinksPtr.deref,
        Mutex.lock, Mutex.unlock, hf, foldl_Line_append_enabled,
        foldl_Line_append_disabled]
  | Error texts =>
    cases hf : filtera Level.ERROR.toIdx <;>
      simp [Logger.call, Logger.call_ret, Logger.statement_ret, Logger.statement,
        Logger.Error, Line.create, Line.destroy, ChainPtr.deref, SinksPtr.deref,
        Mutex.lock, Mutex.unlock, hf, foldl_Line_append_enabled,
        foldl_Line_append_disabled]
  | Fatal texts =>
    cases hf : filtera Level.FATAL.toIdx <;>
      simp [Logger.call, Logger.call_ret, Logger.statement_ret, Logger.statement,
        Logger.Fatal, Line.create, Line.destroy, ChainPtr.deref, SinksPtr.deref,
        Mutex.lock, Mutex.unlock, hf, foldl_Line_append_enabled,
        foldl_Line_append_disabled]

/-- Two loggers that differ at most in the variant of their mutex return the same
from every sequence of calls and stay that way. -/
theorem rets_same_content (Get : FB → String) (cs : List (Call FB)) (a b : Logger FB)
    (h1 : a.m_list_sinks = b.m_list_sinks) (h2 : a.m_list_fb = b.m_list_fb)
    (h3 : a.m_filter = b.m_filter) (h4 : a.m_mutex.calls = b.m_mutex.calls) :
    Logger.rets Get a cs = Logger.rets Get b cs ∧
    (Logger.calls Get a cs).m_list_sinks = (Logger.calls Get b cs).m_list_sinks ∧
    (Logger.calls Get a cs).m_list_fb = (Logger.calls Get b cs).m_list_fb ∧
    (Logger.calls Get a cs).m_filter = (Logger.calls Get b cs).m_filter ∧
    (Logger.calls Get a cs).m_mutex.calls = (Logger.calls Get b cs).m_mutex.calls ∧
    (Logger.calls Get a cs).m_mutex.thread_safe = a.m_mutex.thread_safe ∧
    (Logger.calls Get b cs).m_mutex.thread_safe = b.m_mutex.thread_safe := by
  induction cs generalizing a b with
  | nil => exact ⟨rfl, h1, h2, h3, h4, rfl, rfl⟩
  | cons c cs ih =>
    obtain ⟨r, s1, s2, s3, s4, ta, tb⟩ := call_same_content Get a b c h1 h2 h3 h4
    obtain ⟨r2, t1, t2, t3, t4, ua, ub⟩ :=
      ih (Logger.call Get a c) (Logger.call Get b c) s1 s2 s3 s4
    simp only [Logger.calls, List.foldl_cons, Logger.rets] at *
    exact ⟨by rw [r, r2], t1, t2, t3, t4, ua.trans ta, ub.trans tb⟩

/-- C11: for every initial sink, every initial chains and every sequence of
calls, the logger constructed with `thread_safe = false` returns the same
booleans and the same Lines (same chain, same enabled flag, same writes) as the
one constructed with `thread_safe = true`, and ends with the same registry,
chains, filter and recorded mutex calls; only the mutex variant differs. -/
theorem C11_noop_mutex_mode (sink : Sink) (list_fbs : Fin 6 → List FB)
    (cs : List (Call FB)) (Get : FB → String) :
    Logger.rets Get (Logger.Logger_args false sink list_fbs) cs
      = Logger.rets Get (Logger.Logger_args true sink list_fbs) cs ∧
    (Logger.calls Get (Logger.Logger_args false sink list_fbs) cs).m_list_sinks
      = (Logger.calls Get (Logger.Logger_args true sink list_fbs) cs).m_list_sinks ∧
    (Logger.calls Get (Logger.Logger_args false sink list_fbs) cs).m_list_fb
      = (Logger.calls Get (Logger.Logger_args true sink list_fbs) cs).m_list_fb ∧
    (Logger.calls Get (Logger.Logger_args false sink list_fbs) cs).m_filter
      = (Logger.calls Get (Logger.Logger_args true sink list_fbs) cs).m_filter ∧
    (Logger.calls Get (Logger.Logger_args false sink list_fbs) cs).m_mutex.calls
      = (Logger.calls Get (Logger.Logger_args true sink list_fbs) cs).m_mutex.calls ∧
    (Logger.calls Get (Logger.Logger_args false sink list_fbs) cs).m_mutex.thread_safe
      = false ∧
    (Logger.calls Get (Logger.Logger_args true sink list_fbs) cs).m_mutex.thread_safe
      = true :=
  rets_same_content Get cs (Logger.Logger_args false sink list_fbs)
    (Logger.Logger_args true sink list_fbs) rfl rfl rfl rfl

/-- The two table lookups for a count below 100 give its two decimal digits. -/
theorem two_digit_lookup :
    ∀ n, n < 100 →
      (['0', '1', '2', '3', '4', '5', '6', '7', '8', '9'][n / 10]?).bind (fun a =>
        (['0', '1', '2', '3', '4', '5', '6', '7', '8', '9'][n % 10]?).map (fun b => [a, b]))
      = some (zero_padded 2 n) := by
  decide

set_option maxRecDepth 100000 in
/-- The three table lookups for a count below 1000 give its three decimal
digits. -/
theorem three_digit_lookup :
    ∀ n, n < 1000 →
      (['0', '1', '2', '3', '4', '5', '6', '7', '8', '9'][n / 100]?).bind (fun a =>
        (['0', '1', '2', '3', '4', '5', '6', '7', '8', '9'][n % 100 / 10]?).bind (fun b =>
          (['0', '1', '2', '3', '4', '5', '6', '7', '8', '9'][n % 100 % 10]?).map
            (fun c => [a, b, c])))
      = some (zero_padded 3 n) := by
  decide
/-- The two lookups for a count below 100, one by one. -/
theorem two_digit_chars (n : Nat) (h : n < 100) :
    ∃ a b, ['0', '1', '2', '3', '4', '5', '6', '7', '8', '9'][n / 10]? = some a ∧
      ['0', '1', '2', '3', '4', '5', '6', '7', '8', '9'][n % 10]? = some b ∧
      zero_padded 2 n = [a, b] := by
  have h2 := two_digit_lookup n h
  simp only [Option.bind_eq_some, Option.map_eq_some'] at h2
  obtain ⟨a, ha, b, hb, hab⟩ := h2
  exact ⟨a, b, ha, hb, hab.symm⟩

/-- The three lookups for a count below 1000, one by one. -/
theorem three_digit_chars (n : Nat) (h : n < 1000) :
    ∃ a b c, ['0', '1', '2', '3', '4', '5', '6', '7', '8', '9'][n / 100]? = some a ∧
      ['0', '1', '2', '3', '4', '5', '6', '7', '8', '9'][n % 100 / 10]? = some b ∧
      ['0', '1', '2', '3', '4', '5', '6', '7', '8', '9'][n % 100 % 10]? = some c ∧
      zero_padded 3 n = [a, b, c] := by
  have h2 := three_digit_lookup n h
  simp only [Option.bind_eq_some, Option.map_eq_some'] at h2
  obtain ⟨a, ha, b, hb, c, hc, habc⟩ := h2
  exact ⟨a, b, c, ha, hb, hc, habc.symm⟩

/-- The four counts that `Get` derives from a non-negative elapsed time of `e`
ticks: with `t = e / ticks_per_ms` whole milliseconds they are `t / 3600000`,
`t / 60000 % 60`, `t / 1000 % 60` and `t % 1000`, before the conversion to the
unsigned types. -/
theorem elapsed_split (tpm e : Nat) :
    ((e : Int).tdiv (3600000 * (tpm : Int)) = ((e / tpm / 3600000 : Nat) : Int)) ∧
    ((e : Int) - ((e / tpm / 3600000 : Nat) : Int) * (3600000 * (tpm : Int))
      = ((e % (3600000 * tpm) : Nat) : Int)) ∧
    (((e % (3600000 * tpm) : Nat) : Int).tdiv (60000 * (tpm : Int))
      = ((e / tpm / 60000 % 60 : Nat) : Int)) ∧
    (((e % (3600000 * tpm) : Nat) : Int)
        - ((e / tpm / 60000 % 60 : Nat) : Int) * (60000 * (tpm : Int))
      = ((e % (60000 * tpm) : Nat) : Int)) ∧
    (((e % (60000 * tpm) : Nat) : Int).tdiv (1000 * (tpm : Int))
      = ((e / tpm / 1000 % 60 : Nat) : Int)) ∧
    (((e % (60000 * tpm) : Nat) : Int)
        - ((e / tpm / 1000 % 60 : Nat) : Int) * (1000 * (tpm : Int))
      = ((e % (1000 * tpm) : Nat) : Int)) ∧
    (((e % (1000 * tpm) : Nat) : Int).tdiv (tpm : Int)
      = ((e / tpm % 1000 : Nat) : Int)) := by
  have d1 : e / tpm / 3600000 = e / (3600000 * tpm) := by
    rw [Nat.div_div_eq_div_mul, Nat.mul_comm]
  have d2 : e / tpm / 60000 % 60 = e % (3600000 * tpm) / (60000 * tpm) := by
    rw [Nat.div_div_eq_div_mul, Nat.mul_comm tpm 60000,
      show 3600000 * tpm = 60000 * tpm * 60 by ring, Nat.mod_mul_right_div_self]
  have d3 : e / tpm / 1000 % 60 = e % (60000 * tpm) / (1000 * tpm) := by
    rw [Nat.div_div_eq_div_mul, Nat.mul_comm tpm 1000,
      show 60000 * tpm = 1000 * tpm * 60 by ring, Nat.mod_mul_right_div_self]
  have d4 : e / tpm % 1000 = e % (1000 * tpm) / tpm := by
    rw [show 1000 * tpm = tpm * 1000 by ring, Nat.mod_mul_right_div_self]
  have m2 : e % (3600000 * tpm) % (60000 * tpm) = e % (60000 * tpm) :=
    Nat.mod_mod_of_dvd e ⟨60, by ring⟩
  have m3 : e % (60000 * tpm) % (1000 * tpm) = e % (1000 * tpm) :=
    Nat.mod_mod_of_dvd e ⟨60, by ring⟩
  have c1 : ((3600000 * tpm : Nat) : Int) = 3600000 * (tpm : Int) := by push_cast; ring
  have c2 : ((60000 * tpm : Nat) : Int) = 60000 * (tpm : Int) := by push_cast; ring
  have c3 : ((1000 * tpm : Nat) : Int) = 1000 * (tpm : Int) := by push_cast; ring
  have a1 := Nat.div_add_mod e (3600000 * tpm)
  have a2 := Nat.div_add_mod (e % (3600000 * tpm)) (60000 * tpm)
  have a3 := Nat.div_add_mod (e % (60000 * tpm)) (1000 * tpm)
  rw [m2] at a2
  rw [m3] at a3
  refine ⟨?_, ?_, ?_, ?_, ?_, ?_, ?_⟩
  · rw [d1, Int.ofNat_tdiv, c1]
  · rw [d1, ← c1]
    have := congrArg (fun n : Nat => (n : Int)) a1
    simp only [Nat.cast_add, Nat.cast_mul] at this ⊢
    linarith
  · rw [d2, Int.ofNat_tdiv, c2]
  · rw [d2, ← c2]
    have := congrArg (fun n : Nat => (n : Int)) a2
    simp only [Nat.cast_add, Nat.cast_mul] at this ⊢
    linarith
  · rw [d3, Int.ofNat_tdiv, c3]
  · rw [d3, ← c3]
    have := congrArg (fun n : Nat => (n : Int)) a3
    simp only [Nat.cast_add, Nat.cast_mul] at this ⊢
    linarith
  · rw [d4, Int.ofNat_tdiv]

/-- The conversion of a non-negative count to `uint_fast8_t`. -/
theorem to_uint8 (n : Nat) : ((n : Int) % 2 ^ 8).toNat = n % 256 := by
  omega

/-- The conversion of a non-negative count to `uint_fast16_t`. -/
theorem to_uint16 (n : Nat) : ((n : Int) % 2 ^ 16).toNat = n % 65536 := by
  omega
/-- A buffer of 12 characters, character by character. -/
theorem length_twelve (l : List Char) (h : l.length = 12) :
    ∃ x0 x1 x2 x3 x4 x5 x6 x7 x8 x9 x10 x11,
      l = [x0, x1, x2, x3, x4, x5, x6, x7, x8, x9, x10, x11] := by
  rcases l with _ | ⟨x0, _ | ⟨x1, _ | ⟨x2, _ | ⟨x3, _ | ⟨x4, _ | ⟨x5, _ | ⟨x6, _ | ⟨x7,
    _ | ⟨x8, _ | ⟨x9, _ | ⟨x10, _ | ⟨x11, _ | ⟨x12, l⟩⟩⟩⟩⟩⟩⟩⟩⟩⟩⟩⟩⟩
  all_goals first
    | exact ⟨_, _, _, _, _, _, _, _, _, _, _, _, rfl⟩
    | simp at h

/-- The result of `Get` below 100 hours: the stamp of the elapsed whole
milliseconds, which is also what the buffer holds afterwards. -/
theorem Get_below_100h (self : FBRunTimeMs) (hwf : self.wf) (tpm e : Nat)
    (htpm : 0 < tpm) (he : e < 360000000 * tpm) :
    self.Get tpm (self.m_start + e)
      = some (HH_MM_SS_mmm (e / tpm),
          { self with m_time_str := (HH_MM_SS_mmm (e / tpm)).data }) := by
  obtain ⟨s1, s2, s3, s4, s5, s6, s7⟩ := elapsed_split tpm e
  have ht : e / tpm < 360000000 := (Nat.div_lt_iff_lt_mul htpm).2 he
  have hH : e / tpm / 3600000 < 100 := by omega
  have hM : e / tpm / 60000 % 60 < 100 := by omega
  have hS : e / tpm / 1000 % 60 < 100 := by omega
  have hms : e / tpm % 1000 < 1000 := by omega
  obtain ⟨a0, a1, ha0, ha1, hpa⟩ := two_digit_chars _ hH
  obtain ⟨b0, b1, hb0, hb1, hpb⟩ := two_digit_chars _ hM
  obtain ⟨c0, c1, hc0, hc1, hpc⟩ := two_digit_chars _ hS
  obtain ⟨d0, d1, d2, hd0, hd1, hd2, hpd⟩ := three_digit_chars _ hms
  obtain ⟨hlen, h2, h5, h8, htbl⟩ := hwf
  obtain ⟨x0, x1, x2, x3, x4, x5, x6, x7, x8, x9, x10, x11, hx⟩ :=
    length_twelve self.m_time_str hlen
  rw [hx] at h2 h5 h8
  simp only [List.getElem?_cons_succ, List.getElem?_cons_zero, Option.some.injEq] at h2 h5 h8
  have e8a : e / tpm / 3600000 % 256 = e / tpm / 3600000 := Nat.mod_eq_of_lt (by omega)
  have e8b : e / tpm / 60000 % 60 % 256 = e / tpm / 60000 % 60 := Nat.mod_eq_of_lt (by omega)
  have e8c : e / tpm / 1000 % 60 % 256 = e / tpm / 1000 % 60 := Nat.mod_eq_of_lt (by omega)
  have e16 : e / tpm % 1000 % 65536 = e / tpm % 1000 := Nat.mod_eq_of_lt (by omega)
  unfold FBRunTimeMs.Get
  simp only [add_sub_cancel_left, s1, s2, s3, s4, s5, s6, s7, to_uint8, to_uint16,
    e8a, e8b, e8c, e16, htbl, ha0, ha1, hb0, hb1, hc0, hc1, hd0, hd1, hd2, hx,
    Option.bind_eq_bind, Option.some_bind, Option.pure_def, bind_pure_comp,
    HH_MM_SS_mmm, hpa, hpb, hpc, hpd, h2, h5, h8]
  simp [List.set, h2, h5, h8]
/-- The stamp of less than 100 hours, character by character. -/
theorem HH_MM_SS_mmm_shape (t : Nat) (ht : t < 360000000) :
    ∃ a0 a1 b0 b1 c0 c1 d0 d1 d2,
      (HH_MM_SS_mmm t).data = [a0, a1, ':', b0, b1, ':', c0, c1, '.', d0, d1, d2] := by
  obtain ⟨a0, a1, _, _, hpa⟩ := two_digit_chars (t / 3600000) (by omega)
  obtain ⟨b0, b1, _, _, hpb⟩ := two_digit_chars (t / 60000 % 60) (by omega)
  obtain ⟨c0, c1, _, _, hpc⟩ := two_digit_chars (t / 1000 % 60) (by omega)
  obtain ⟨d0, d1, d2, _, _, _, hpd⟩ := three_digit_chars (t % 1000) (by omega)
  exact ⟨a0, a1, b0, b1, c0, c1, d0, d1, d2, by simp [HH_MM_SS_mmm, hpa, hpb, hpc, hpd]⟩

/-- A freshly constructed block has the shape `wf`. -/
theorem create_wf (now : Int) : (FBRunTimeMs.create now).wf := by
  refine ⟨?_, ?_, ?_, ?_, ?_⟩ <;> rfl

/-- A call of `Get` below 100 hours keeps the shape `wf`, the reference instant
and the digit table. -/
theorem Get_below_100h_wf (self : FBRunTimeMs) (hwf : self.wf) (tpm e : Nat)
    (htpm : 0 < tpm) (he : e < 360000000 * tpm) :
    ∃ r, self.Get tpm (self.m_start + e) = some r ∧ r.1 = HH_MM_SS_mmm (e / tpm) ∧
      r.2.wf ∧ r.2.m_start = self.m_start := by
  have ht : e / tpm < 360000000 := (Nat.div_lt_iff_lt_mul htpm).2 he
  refine ⟨_, Get_below_100h self hwf tpm e htpm he, rfl, ?_, rfl⟩
  obtain ⟨a0, a1, b0, b1, c0, c1, d0, d1, d2, hs⟩ := HH_MM_SS_mmm_shape (e / tpm) ht
  refine ⟨?_, ?_, ?_, ?_, hwf.2.2.2.2⟩ <;> simp [hs]

/-- A sequence of `Get` calls, each below 100 hours, runs through and keeps the
shape `wf` and the reference instant. -/
theorem Gets_below_100h (tpm : Nat) (htpm : 0 < tpm) (earlier : List Nat)
    (hearlier : ∀ x ∈ earlier, x < 360000000 * tpm) (self : FBRunTimeMs)
    (hwf : self.wf) :
    ∃ after, FBRunTimeMs.Gets tpm self (earlier.map (fun x => self.m_start + (x : Int)))
        = some after ∧ after.wf ∧ after.m_start = self.m_start := by
  induction earlier generalizing self with
  | nil => exact ⟨self, rfl, hwf, rfl⟩
  | cons x xs ih =>
    obtain ⟨r, hr, _, hrwf, hrs⟩ :=
      Get_below_100h_wf self hwf tpm x htpm (hearlier x (by simp))
    obtain ⟨after, ha, hawf, has⟩ := ih (fun y hy => hearlier y (by simp [hy])) r.2 hrwf
    refine ⟨after, ?_, hawf, has.trans hrs⟩
    simp only [List.map_cons, FBRunTimeMs.Gets, hr]
    rw [← hrs]
    exact ha

/-- The string `Get` returns does not depend on what the buffer held before: two
blocks of shape `wf` with the same reference instant return the same. -/
theorem Get_string_indep (a b : FBRunTimeMs) (ha : a.wf) (hb : b.wf)
    (hs : a.m_start = b.m_start) (tpm : Nat) (now : Int) :
    (a.Get tpm now).map Prod.fst = (b.Get tpm now).map Prod.fst := by
  obtain ⟨alen, a2, a5, a8, atbl⟩ := ha
  obtain ⟨blen, b2, b5, b8, btbl⟩ := hb
  obtain ⟨x0, x1, x2, x3, x4, x5, x6, x7, x8, x9, x10, x11, hx⟩ :=
    length_twelve a.m_time_str alen
  obtain ⟨y0, y1, y2, y3, y4, y5, y6, y7, y8, y9, y10, y11, hy⟩ :=
    length_twelve b.m_time_str blen
  rw [hx] at a2 a5 a8
  rw [hy] at b2 b5 b8
  simp only [List.getElem?_cons_succ, List.getElem?_cons_zero, Option.some.injEq]
    at a2 a5 a8 b2 b5 b8
  unfold FBRunTimeMs.Get
  simp only [hs, atbl, btbl, hx, hy, a2, a5, a8, b2, b5, b8]
  generalize (['0', '1', '2', '3', '4', '5', '6', '7', '8', '9'] : List Char)[(_ : Nat)]? = o1
  generalize (['0', '1', '2', '3', '4', '5', '6', '7', '8', '9'] : List Char)[(_ : Nat)]? = o2
  generalize (['0', '1', '2', '3', '4', '5', '6', '7', '8', '9'] : List Char)[(_ : Nat)]? = o3
  generalize (['0', '1', '2', '3', '4', '5', '6', '7', '8', '9'] : List Char)[(_ : Nat)]? = o4
  generalize (['0', '1', '2', '3', '4', '5', '6', '7', '8', '9'] : List Char)[(_ : Nat)]? = o5
  generalize (['0', '1', '2', '3', '4', '5', '6', '7', '8', '9'] : List Char)[(_ : Nat)]? = o6
  generalize (['0', '1', '2', '3', '4', '5', '6', '7', '8', '9'] : List Char)[(_ : Nat)]? = o7
  generalize (['0', '1', '2', '3', '4', '5', '6', '7', '8', '9'] : List Char)[(_ : Nat)]? = o8
  generalize (['0', '1', '2', '3', '4', '5', '6', '7', '8', '9'] : List Char)[(_ : Nat)]? = o9
  cases o1 <;> [rfl; skip]
  cases o2 <;> [rfl; skip]
  cases o3 <;> [rfl; skip]
  cases o4 <;> [rfl; skip]
  cases o5 <;> [rfl; skip]
  cases o6 <;> [rfl; skip]
  cases o7 <;> [rfl; skip]
  cases o8 <;> [rfl; skip]
  cases o9 <;> [rfl; skip]
  simp [List.set]

/-- C12: for every elapsed time of `e` clock ticks with `0 <= e < 100 hours`, `Get`
returns exactly the 12-character string `HH:MM:SS.mmm` of `t = e` truncated to
whole milliseconds: `HH = t / 3600000`, `MM = (t / 60000) mod 60`,
`SS = (t / 1000) mod 60`, `mmm = t mod 1000`, in decimal, zero-padded to 2, 2, 2
and 3 digits. This holds for a freshly constructed block and for every block of
the shape blocks have between calls, whatever the clock's tick. -/
theorem C12_stamp_below_100h (self : FBRunTimeMs) (hwf : self.wf)
    (ticks_per_ms e : Nat) (htick : 0 < ticks_per_ms)
    (he : e < 360000000 * ticks_per_ms) :
    (self.Get ticks_per_ms (self.m_start + e)).map Prod.fst
      = some (HH_MM_SS_mmm (e / ticks_per_ms)) ∧
    ((FBRunTimeMs.create self.m_start).Get ticks_per_ms (self.m_start + e)).map Prod.fst
      = some (HH_MM_SS_mmm (e / ticks_per_ms)) ∧
    (HH_MM_SS_mmm (e / ticks_per_ms)).length = 12 := by
  have ht : e / ticks_per_ms < 360000000 := (Nat.div_lt_iff_lt_mul htick).2 he
  refine ⟨?_, ?_, ?_⟩
  · rw [Get_below_100h self hwf ticks_per_ms e htick he]
    rfl
  · have h := Get_below_100h (FBRunTimeMs.create self.m_start)
      (create_wf self.m_start) ticks_per_ms e htick he
    have hs : (FBRunTimeMs.create self.m_start).m_start = self.m_start := rfl
    rw [hs] at h
    rw [h]
    rfl
  · obtain ⟨a0, a1, b0, b1, c0, c1, d0, d1, d2, hs⟩ :=
      HH_MM_SS_mmm_shape (e / ticks_per_ms) ht
    simp [String.length, hs]

/-- C12 at the example of the claim: 3723004 ms (and a fraction of a millisecond
more, on a clock that ticks in nanoseconds) gives "01:02:03.004". -/
theorem C12_stamp_below_100h_witness :
    (FBRunTimeMs.create 5).wf ∧ 0 < 1000000 ∧
    3723004 * 1000000 + 999999 < 360000000 * 1000000 ∧
    ((FBRunTimeMs.create 5).Get 1000000
        ((FBRunTimeMs.create 5).m_start + ((3723004 * 1000000 + 999999 : Nat) : Int))).map
        Prod.fst = some "01:02:03.004" :=
  ⟨create_wf 5, by decide, by decide,
   (C12_stamp_below_100h (FBRunTimeMs.create 5) (create_wf 5) 1000000
      (3723004 * 1000000 + 999999) (by decide) (by decide)).1.trans (by decide)⟩

/-- C13: an `FBCustomStr` constructed with the literal `s` returns exactly `s` from
every one of any number of `Get` calls, and still holds `s` afterwards. -/
theorem C13_custom_str (s : String) (n : Nat) :
    (FBCustomStr.create s).Get.1 = s ∧
    ((FBCustomStr.create s).Gets n).1 = List.replicate n s ∧
    ((FBCustomStr.create s).Gets n).2.m_s = s ∧
    (((FBCustomStr.create s).Gets n).2.Get).1 = s := by
  have h : ∀ (n : Nat) (fb : FBCustomStr),
      (fb.Gets n).1 = List.replicate n fb.m_s ∧ (fb.Gets n).2 = fb := by
    intro n
    induction n with
    | zero => intro fb; exact ⟨rfl, rfl⟩
    | succ k ih =>
      intro fb
      have h1 := ih fb
      simp only [FBCustomStr.Gets, FBCustomStr.Get, h1.1, h1.2, List.replicate_succ]
      exact ⟨trivial, trivial⟩
  have h2 := h n (FBCustomStr.create s)
  refine ⟨rfl, h2.1, ?_, ?_⟩
  · rw [h2.2]; rfl
  · rw [h2.2]; rfl

/-- C14: the process-wide logger `LOG` has the real mutex, exactly one sink in its
registry, for each of the six levels a chain of exactly two blocks, an
`FBRunTimeMs` and then the `FBCustomStr` of the label of that same level, and all
six filter bits set. -/
theorem C14_LOG (sink : Sink) (now : Fin 6 → Int) :
    (LOG sink now).m_mutex.thread_safe = true ∧
    (LOG sink now).m_list_sinks = [sink] ∧
    (LOG sink now).m_list_fb Level.TRACE.toIdx
      = [FormatBlock.FBRunTimeMs (FBRunTimeMs.create (now 0)),
         FormatBlock.FBCustomStr (FBCustomStr.create ": TRACE: KS: ")] ∧
    (LOG sink now).m_list_fb Level.DEBUG.toIdx
      = [FormatBlock.FBRunTimeMs (FBRunTimeMs.create (now 1)),
         FormatBlock.FBCustomStr (FBCustomStr.create ": DEBUG: KS: ")] ∧
    (LOG sink now).m_list_fb Level.INFO.toIdx
      = [FormatBlock.FBRunTimeMs (FBRunTimeMs.create (now 2)),
         FormatBlock.FBCustomStr (FBCustomStr.create ": INFO:  KS: ")] ∧
    (LOG sink now).m_list_fb Level.WARN.toIdx
      = [FormatBlock.FBRunTimeMs (FBRunTimeMs.create (now 3)),
         FormatBlock.FBCustomStr (FBCustomStr.create ": WARN:  KS: ")] ∧
    (LOG sink now).m_list_fb Level.ERROR.toIdx
      = [FormatBlock.FBRunTimeMs (FBRunTimeMs.create (now 4)),
         FormatBlock.FBCustomStr (FBCustomStr.create ": ERROR: KS: ")] ∧
    (LOG sink now).m_list_fb Level.FATAL.toIdx
      = [FormatBlock.FBRunTimeMs (FBRunTimeMs.create (now 5)),
         FormatBlock.FBCustomStr (FBCustomStr.create ": FATAL: KS: ")] ∧
    (∀ L : Level, (LOG sink now).m_filter L.toIdx = true) ∧
    (∀ L : Level, ((LOG sink now).m_list_fb L.toIdx).length = 2) := by
  refine ⟨rfl, rfl, ?_, ?_, ?_, ?_, ?_, ?_, ?_, ?_⟩
  · simp [LOG, Logger.Logger_args, save_format_blocks_eq, Level.toIdx]
  · simp [LOG, Logger.Logger_args, save_format_blocks_eq, Level.toIdx]
  · simp [LOG, Logger.Logger_args, save_format_blocks_eq, Level.toIdx]
  · simp [LOG, Logger.Logger_args, save_format_blocks_eq, Level.toIdx]
  · simp [LOG, Logger.Logger_args, save_format_blocks_eq, Level.toIdx]
  · simp [LOG, Logger.Logger_args, save_format_blocks_eq, Level.toIdx]
  · intro L; cases L <;> rfl
  · intro L
    cases L <;> simp [LOG, Logger.Logger_args, save_format_blocks_eq, Level.toIdx]

/-- C18: at an elapsed time of exactly 100 hours `Get` has no defined result: the
hours count is 100, so the first lookup uses index 10 of the ten-entry digit
table, which has no entry there. -/
theorem C18_Get_at_100_hours :
    (FBRunTimeMs.create 0).Get 1 360000000 = none ∧
    (((360000000 : Int) - 0).tdiv (3600000 * ((1 : Nat) : Int)) % 2 ^ 8).toNat / 10 = 10 ∧
    (FBRunTimeMs.create 0).m_list_num_chars.length = 10 ∧
    (FBRunTimeMs.create 0).m_list_num_chars[10]? = none := by
  decide

/-- C19: after any sequence of earlier `Get` calls, each at an elapsed time below
100 hours, a block returns for every clock reading what a freshly constructed
block with the same reference instant returns, so the string depends on the
elapsed time only; below 100 hours it is the stamp of the elapsed
milliseconds. The earlier calls all return, and leave the buffer 12 characters
long with `:`, `:` and `.` at positions 2, 5 and 8. -/
theorem C19_Get_depends_on_elapsed_only (ticks_per_ms : Nat) (htick : 0 < ticks_per_ms)
    (start : Int) (earlier : List Nat)
    (hearlier : ∀ x ∈ earlier, x < 360000000 * ticks_per_ms) :
    ∃ after,
      FBRunTimeMs.Gets ticks_per_ms (FBRunTimeMs.create start)
          (earlier.map (fun x => start + (x : Int))) = some after ∧
      after.wf ∧
      (∀ now : Int, (after.Get ticks_per_ms now).map Prod.fst
        = ((FBRunTimeMs.create start).Get ticks_per_ms now).map Prod.fst) ∧
      (∀ e : Nat, e < 360000000 * ticks_per_ms →
        (after.Get ticks_per_ms (start + e)).map Prod.fst
          = some (HH_MM_SS_mmm (e / ticks_per_ms))) := by
  obtain ⟨after, h1, h2, h3⟩ := Gets_below_100h ticks_per_ms htick earlier hearlier
    (FBRunTimeMs.create start) (create_wf start)
  have hs : after.m_start = start := h3
  refine ⟨after, h1, h2, ?_, ?_⟩
  · intro now
    exact Get_string_indep after (FBRunTimeMs.create start) h2 (create_wf start) hs
      ticks_per_ms now
  · intro e he
    have h := Get_below_100h after h2 ticks_per_ms e htick he
    rw [hs] at h
    rw [h]
    rfl

/-- C19 at a concrete run: calls at 1 ms, 99 h 59 min 59.999 s and 2 s, then a
call at 3723004 ms, on a clock that ticks in milliseconds. -/
theorem C19_Get_depends_on_elapsed_only_witness :
    0 < 1 ∧ (∀ x ∈ [1, 359999999, 2000], x < 360000000 * 1) ∧
    ∃ after,
      FBRunTimeMs.Gets 1 (FBRunTimeMs.create 7)
          ([1, 359999999, 2000].map (fun x => (7 : Int) + ((x : Nat) : Int))) = some after ∧
      after.wf ∧
      (∀ now : Int, (after.Get 1 now).map Prod.fst
        = ((FBRunTimeMs.create 7).Get 1 now).map Prod.fst) ∧
      (∀ e : Nat, e < 360000000 * 1 →
        (after.Get 1 (7 + e)).map Prod.fst = some (HH_MM_SS_mmm (e / 1))) :=
  ⟨by decide, by decide,
   C19_Get_depends_on_elapsed_only 1 (by decide) 7 [1, 359999999, 2000] (by decide)⟩

/-- What one call does to the registry: `AddSink` appends a sink that is not in
it or leaves it, `RemoveSink` erases one entry or leaves it, every other call
leaves it. -/
theorem call_sinks_nodup (Get : FB → String) (self : Logger FB) (c : Call FB)
    (h : self.m_list_sinks.Nodup) : (Logger.call Get self c).m_list_sinks.Nodup := by
  cases c with
  | AddSink sink =>
    by_cases hm : sink ∈ self.m_list_sinks
    · have h1 := (AddSink_cases self sink).1 hm
      simp only [Logger.call]
      rw [h1.2.1]
      exact h
    · have h1 := (AddSink_cases self sink).2 hm
      simp only [Logger.call]
      rw [h1.2]
      refine List.Nodup.append h (List.nodup_singleton sink) ?_
      intro a ha hb
      have e : a = sink := by simpa using hb
      exact hm (e ▸ ha)
  | RemoveSink sink =>
    simp only [Logger.call]
    cases hl : Logger.RemoveSink_loop sink self.m_list_sinks 0 with
    | none => simpa [Logger.RemoveSink, hl] using h
    | some i =>
      simp only [Logger.RemoveSink, hl]
      exact List.Nodup.sublist (List.eraseIdx_sublist _ _) h
  | SetLevel level => exact h
  | UnsetLevel level => exact h
  | AddFormatBlock fb level => exact h
  | Custom level texts =>
    simp only [Logger.call]
    rw [(statement_logger_frame self level texts Get).1]
    exact h
  | Trace texts =>
    simp only [Logger.call]
    have e := (statement_logger_frame self Level.TRACE texts Get).1
    exact e ▸ h
  | Debug texts =>
    simp only [Logger.call]
    have e := (statement_logger_frame self Level.DEBUG texts Get).1
    exact e ▸ h
  | Info texts =>
    simp only [Logger.call]
    have e := (statement_logger_frame self Level.INFO texts Get).1
    exact e ▸ h
  | Warn texts =>
    simp only [Logger.call]
    have e := (statement_logger_frame self Level.WARN texts Get).1
    exact e ▸ h
  | Error texts =>
    simp only [Logger.call]
    have e := (statement_logger_frame self Level.ERROR texts Get).1
    exact e ▸ h
  | Fatal texts =>
    simp only [Logger.call]
    have e := (statement_logger_frame self Level.FATAL texts Get).1
    exact e ▸ h

/-- A sequence of calls keeps a registry free of repeated sinks. -/
theorem calls_sinks_nodup (Get : FB → String) (cs : List (Call FB)) (self : Logger FB)
    (h : self.m_list_sinks.Nodup) : (Logger.calls Get self cs).m_list_sinks.Nodup := by
  induction cs generalizing self with
  | nil => exact h
  | cons c cs ih =>
    simp only [Logger.calls, List.foldl_cons]
    exact ih (Logger.call Get self c) (call_sinks_nodup Get self c h)

/-- The sinks a statement writes to are sinks of the registry, each as often as
the registry holds it. -/
theorem statement_writes_sinks (self : Logger FB) (L : Level) (texts : List String)
    (Get : FB → String) :
    ((self.statement (fun lg => lg.entry_point L) texts Get).writes.map Prod.fst).Sublist
      self.m_list_sinks := by
  have hfun : (fun lg : Logger FB => lg.entry_point L) = (fun lg => lg.Custom L) :=
    funext (fun lg => entry_point_eq_Custom lg L)
  rw [hfun]
  cases hf : self.m_filter L.toIdx with
  | false =>
    rw [(statement_disabled self L texts Get hf).2]
    simp
  | true =>
    rw [(statement_enabled self L texts Get hf).2]
    simp [List.map_map, Function.comp_def]

/-- C16: in every logger state reached from either constructor by any sequence of
calls, no two entries of the registry are identity-equal, and a statement at any
level writes to each sink at most once. -/
theorem C16_registry_nodup (thread_safe : Bool) (sink : Sink)
    (list_fbs : Fin 6 → List FB) (cs : List (Call FB)) (Get : FB → String) :
    (Logger.calls Get (Logger.Logger_args thread_safe sink list_fbs) cs).m_list_sinks.Nodup ∧
    (Logger.calls Get (Logger.Logger_default : Logger FB) cs).m_list_sinks.Nodup ∧
    (∀ (L : Level) (texts : List String) (s : Sink),
      (((Logger.calls Get (Logger.Logger_args thread_safe sink list_fbs) cs).statement
        (fun lg => lg.entry_point L) texts Get).writes.map Prod.fst).count s ≤ 1) ∧
    (∀ (L : Level) (texts : List String) (s : Sink),
      (((Logger.calls Get (Logger.Logger_default : Logger FB) cs).statement
        (fun lg => lg.entry_point L) texts Get).writes.map Prod.fst).count s ≤ 1) := by
  have hA : (Logger.calls Get (Logger.Logger_args thread_safe sink list_fbs)
      cs).m_list_sinks.Nodup :=
    calls_sinks_nodup Get cs _ (by simp [Logger.Logger_args])
  have hD : (Logger.calls Get (Logger.Logger_default : Logger FB) cs).m_list_sinks.Nodup :=
    calls_sinks_nodup Get cs _ (by simp [Logger.Logger_default])
  refine ⟨hA, hD, ?_, ?_⟩
  · intro L texts s
    exact List.nodup_iff_count_le_one.1
      (List.Nodup.sublist (statement_writes_sinks _ L texts Get) hA) s
  · intro L texts s
    exact List.nodup_iff_count_le_one.1
      (List.Nodup.sublist (statement_writes_sinks _ L texts Get) hD) s

/-- The loop of `RemoveSink` on a registry whose only entry equal to the sink is
the last one stops at that last entry. -/
theorem RemoveSink_loop_append_self (s : Sink) (sinks : List Sink) (k : Nat)
    (h : s ∉ sinks) :
    Logger.RemoveSink_loop s (sinks ++ [s]) k = some (k + sinks.length) := by
  induction sinks generalizing k with
  | nil => simp [Logger.RemoveSink_loop]
  | cons x xs ih =>
    have hx : ¬ x = s := fun e => h (by simp [e])
    have hxs : s ∉ xs := fun e => h (by simp [e])
    have e : Logger.RemoveSink_loop s (x :: xs ++ [s]) k
        = Logger.RemoveSink_loop s (xs ++ [s]) (k + 1) := by
      simp [Logger.RemoveSink_loop, hx]
    rw [e, ih (k + 1) hxs]
    congr 1
    simp only [List.length_cons]
    omega

/-- C20: when `AddSink(s)` returns true, a following `RemoveSink(s)` returns true
and the registry is again what it was before the `AddSink`, same entries in the
same order; the chains and the filter are unchanged throughout. -/
theorem C20_AddSink_RemoveSink (self : Logger FB) (s : Sink)
    (h : (self.AddSink s).1 = true) :
    ((self.AddSink s).2.RemoveSink s).1 = true ∧
    ((self.AddSink s).2.RemoveSink s).2.m_list_sinks = self.m_list_sinks ∧
    (self.AddSink s).2.m_list_fb = self.m_list_fb ∧
    (self.AddSink s).2.m_filter = self.m_filter ∧
    ((self.AddSink s).2.RemoveSink s).2.m_list_fb = self.m_list_fb ∧
    ((self.AddSink s).2.RemoveSink s).2.m_filter = self.m_filter := by
  have hn : s ∉ self.m_list_sinks := by
    intro hm
    have h1 := ((AddSink_cases self s).1 hm).1
    rw [h1] at h
    exact Bool.noConfusion h
  have hl : Logger.AddSink_loop s self.m_list_sinks = false := by
    cases hc : Logger.AddSink_loop s self.m_list_sinks with
    | false => rfl
    | true => exact absurd ((AddSink_loop_eq_true_iff s self.m_list_sinks).1 hc) hn
  have hr := RemoveSink_loop_append_self s self.m_list_sinks 0 hn
  have he := eraseIdx_front_length s self.m_list_sinks []
  simp only [List.append_nil] at he
  simp [Logger.AddSink, Logger.RemoveSink, hl, hr, he]

/-- C20 at a concrete logger: a sink added to the registry of one sink and
removed again. -/
theorem C20_AddSink_RemoveSink_witness :
    ((Logger.Logger_args true ⟨1⟩ (fun _ => ([] : List String))).AddSink ⟨7⟩).1 = true ∧
    (((Logger.Logger_args true ⟨1⟩ (fun _ => ([] : List String))).AddSink ⟨7⟩).2.RemoveSink
      ⟨7⟩).1 = true ∧
    (((Logger.Logger_args true ⟨1⟩ (fun _ => ([] : List String))).AddSink ⟨7⟩).2.RemoveSink
      ⟨7⟩).2.m_list_sinks = [⟨1⟩] :=
  ⟨by decide,
   (C20_AddSink_RemoveSink (Logger.Logger_args true ⟨1⟩ (fun _ => ([] : List String))) ⟨7⟩
      (by decide)).1,
   (C20_AddSink_RemoveSink (Logger.Logger_args true ⟨1⟩ (fun _ => ([] : List String))) ⟨7⟩
      (by decide)).2.1⟩

/-- The loop of `AddSink` only reads the registry. -/
theorem AddSink_loop_events_access (s : Sink) (sinks : List Sink) :
    ∀ e ∈ Logger.AddSink_loop_events s sinks, ∃ m, e = Event.access m := by
  induction sinks with
  | nil => simp [Logger.AddSink_loop_events]
  | cons x xs ih =>
    intro e he
    by_cases hx : x = s
    · simp [Logger.AddSink_loop_events, hx] at he
      exact ⟨_, he⟩
    · simp only [Logger.AddSink_loop_events, hx, if_false, List.mem_cons] at he
      rcases he with he | he | he
      · exact ⟨_, he⟩
      · exact ⟨_, he⟩
      · exact ih e he

/-- The loop of `RemoveSink` only reads the registry. -/
theorem RemoveSink_loop_events_access (s : Sink) (sinks : List Sink) :
    ∀ e ∈ Logger.RemoveSink_loop_events s sinks, ∃ m, e = Event.access m := by
  induction sinks with
  | nil => simp [Logger.RemoveSink_loop_events]
  | cons x xs ih =>
    intro e he
    by_cases hx : x = s
    · simp [Logger.RemoveSink_loop_events, hx] at he
      exact ⟨_, he⟩
    · simp only [Logger.RemoveSink_loop_events, hx, if_false, List.mem_cons] at he
      rcases he with he | he | he
      · exact ⟨_, he⟩
      · exact ⟨_, he⟩
      · exact ih e he

/-- Accesses are no calls on the mutex. -/
theorem mutex_calls_accesses (mid rest : List Event)
    (h : ∀ e ∈ mid, ∃ m, e = Event.access m) :
    Event.mutex_calls (mid ++ rest) = Event.mutex_calls rest := by
  induction mid with
  | nil => rfl
  | cons x xs ih =>
    obtain ⟨m, hm⟩ := h x (by simp)
    subst hm
    have e : Event.mutex_calls (Event.access m :: xs ++ rest)
        = Event.mutex_calls (xs ++ rest) := rfl
    rw [e]
    exact ih (fun e he => h e (by simp [he]))

/-- Events that start with `lock`, end with `unlock` and only access members in
between hold exactly the two calls on the mutex, in that order. -/
theorem mutex_calls_bracket (mid : List Event)
    (h : ∀ e ∈ mid, ∃ m, e = Event.access m) :
    Event.mutex_calls (Event.lock :: mid ++ [Event.unlock])
      = [MutexCall.lock, MutexCall.unlock] := by
  have e : Event.mutex_calls (Event.lock :: mid ++ [Event.unlock])
      = MutexCall.lock :: Event.mutex_calls (mid ++ [Event.unlock]) := rfl
  rw [e, mutex_calls_accesses mid [Event.unlock] h]
  rfl

/-- One `lock()` followed by one `unlock()` leaves the lock-hold count as it was. -/
theorem holdCount_lock_unlock (m : Mutex) : m.lock.unlock.holdCount = m.holdCount := by
  simp only [Mutex.holdCount, Mutex.lock, Mutex.unlock, List.count_append]
  simp [List.count_cons]

/-- C17: on every return path each of `AddSink`, `RemoveSink`, `SetLevel`,
`UnsetLevel` and `AddFormatBlock` starts with `lock()`, ends with `unlock()` and
in between only reads or writes the guarded members; the mutex receives exactly
these two calls, in this order, and the lock-hold count on return is what it was
at entry. -/
theorem C17_admin_lock_unlock (self : Logger FB) (s : Sink) (fb : FB) (L : Level) :
    ((∃ mid, Logger.AddSink_events self s = Event.lock :: mid ++ [Event.unlock] ∧
        ∀ e ∈ mid, ∃ m, e = Event.access m) ∧
      (self.AddSink s).2.m_mutex.calls
        = self.m_mutex.calls ++ Event.mutex_calls (Logger.AddSink_events self s) ∧
      (self.AddSink s).2.m_mutex.calls
        = self.m_mutex.calls ++ [MutexCall.lock, MutexCall.unlock] ∧
      (self.AddSink s).2.m_mutex.holdCount = self.m_mutex.holdCount) ∧
    ((∃ mid, Logger.RemoveSink_events self s = Event.lock :: mid ++ [Event.unlock] ∧
        ∀ e ∈ mid, ∃ m, e = Event.access m) ∧
      (self.RemoveSink s).2.m_mutex.calls
        = self.m_mutex.calls ++ Event.mutex_calls (Logger.RemoveSink_events self s) ∧
      (self.RemoveSink s).2.m_mutex.calls
        = self.m_mutex.calls ++ [MutexCall.lock, MutexCall.unlock] ∧
      (self.RemoveSink s).2.m_mutex.holdCount = self.m_mutex.holdCount) ∧
    ((∃ mid, Logger.SetLevel_events self L = Event.lock :: mid ++ [Event.unlock] ∧
        ∀ e ∈ mid, ∃ m, e = Event.access m) ∧
      (self.SetLevel L).m_mutex.calls
        = self.m_mutex.calls ++ Event.mutex_calls (Logger.SetLevel_events self L) ∧
      (self.SetLevel L).m_mutex.calls
        = self.m_mutex.calls ++ [MutexCall.lock, MutexCall.unlock] ∧
      (self.SetLevel L).m_mutex.holdCount = self.m_mutex.holdCount) ∧
    ((∃ mid, Logger.UnsetLevel_events self L = Event.lock :: mid ++ [Event.unlock] ∧
        ∀ e ∈ mid, ∃ m, e = Event.access m) ∧
      (self.UnsetLevel L).m_mutex.calls
        = self.m_mutex.calls ++ Event.mutex_calls (Logger.UnsetLevel_events self L) ∧
      (self.UnsetLevel L).m_mutex.calls
        = self.m_mutex.calls ++ [MutexCall.lock, MutexCall.unlock] ∧
      (self.UnsetLevel L).m_mutex.holdCount = self.m_mutex.holdCount) ∧
    ((∃ mid, Logger.AddFormatBlock_events self fb L
          = Event.lock :: mid ++ [Event.unlock] ∧
        ∀ e ∈ mid, ∃ m, e = Event.access m) ∧
      (self.AddFormatBlock fb L).m_mutex.calls
        = self.m_mutex.calls
          ++ Event.mutex_calls (Logger.AddFormatBlock_events self fb L) ∧
      (self.AddFormatBlock fb L).m_mutex.calls
        = self.m_mutex.calls ++ [MutexCall.lock, MutexCall.unlock] ∧
      (self.AddFormatBlock fb L).m_mutex.holdCount = self.m_mutex.holdCount) := by
  have hcalls : self.m_mutex.lock.unlock.calls
      = self.m_mutex.calls ++ [MutexCall.lock, MutexCall.unlock] := by
    simp [Mutex.lock, Mutex.unlock]
  have hhold := holdCount_lock_unlock self.m_mutex
  -- AddSink
  have hA : ∃ mid, Logger.AddSink_events self s = Event.lock :: mid ++ [Event.unlock] ∧
      ∀ e ∈ mid, ∃ m, e = Event.access m := by
    by_cases hl : Logger.AddSink_loop s self.m_list_sinks = true
    · refine ⟨Logger.AddSink_loop_events s self.m_list_sinks, ?_,
        AddSink_loop_events_access s _⟩
      simp [Logger.AddSink_events, hl]
    · refine ⟨Logger.AddSink_loop_events s self.m_list_sinks
        ++ [Event.access Member.m_list_sinks], ?_, ?_⟩
      · simp [Logger.AddSink_events, hl]
      · intro e he
        rcases List.mem_append.1 he with h1 | h1
        · exact AddSink_loop_events_access s _ e h1
        · exact ⟨_, by simpa using h1⟩
  have hAm : (self.AddSink s).2.m_mutex = self.m_mutex.lock.unlock := by
    by_cases hl : Logger.AddSink_loop s self.m_list_sinks = true <;>
      simp [Logger.AddSink, hl]
  -- RemoveSink
  have hR : ∃ mid, Logger.RemoveSink_events self s = Event.lock :: mid ++ [Event.unlock] ∧
      ∀ e ∈ mid, ∃ m, e = Event.access m := by
    cases hl : Logger.RemoveSink_loop s self.m_list_sinks 0 with
    | none =>
      refine ⟨Event.access Member.m_list_sinks
        :: Logger.RemoveSink_loop_events s self.m_list_sinks, ?_, ?_⟩
      · simp [Logger.RemoveSink_events, hl]
      · intro e he
        rcases List.mem_cons.1 he with h1 | h1
        · exact ⟨_, h1⟩
        · exact RemoveSink_loop_events_access s _ e h1
    | some i =>
      refine ⟨Event.access Member.m_list_sinks
        :: (Logger.RemoveSink_loop_events s self.m_list_sinks
          ++ [Event.access Member.m_list_sinks]), ?_, ?_⟩
      · simp [Logger.RemoveSink_events, hl]
      · intro e he
        rcases List.mem_cons.1 he with h1 | h1
        · exact ⟨_, h1⟩
        · rcases List.mem_append.1 h1 with h2 | h2
          · exact RemoveSink_loop_events_access s _ e h2
          · exact ⟨_, by simpa using h2⟩
  have hRm : (self.RemoveSink s).2.m_mutex = self.m_mutex.lock.unlock := by
    cases hl : Logger.RemoveSink_loop s self.m_list_sinks 0 <;>
      simp [Logger.RemoveSink, hl]
  -- the three void methods
  have hV : ∀ member : Member,
      ∃ mid, [Event.lock, Event.access member, Event.unlock]
          = Event.lock :: mid ++ [Event.unlock] ∧
        ∀ e ∈ mid, ∃ m, e = Event.access m :=
    fun member => ⟨[Event.access member], rfl, fun e he => ⟨member, by simpa using he⟩⟩
  have hSm : (self.SetLevel L).m_mutex = self.m_mutex.lock.unlock := rfl
  have hUm : (self.UnsetLevel L).m_mutex = self.m_mutex.lock.unlock := rfl
  have hFm : (self.AddFormatBlock fb L).m_mutex = self.m_mutex.lock.unlock := rfl
  refine ⟨⟨hA, ?_, ?_, ?_⟩, ⟨hR, ?_, ?_, ?_⟩, ⟨hV _, ?_, ?_, ?_⟩, ⟨hV _, ?_, ?_, ?_⟩,
    ⟨hV _, ?_, ?_, ?_⟩⟩
  · obtain ⟨mid, h1, h2⟩ := hA
    rw [hAm, hcalls, h1, mutex_calls_bracket mid h2]
  · rw [hAm, hcalls]
  · rw [hAm, hhold]
  · obtain ⟨mid, h1, h2⟩ := hR
    rw [hRm, hcalls, h1, mutex_calls_bracket mid h2]
  · rw [hRm, hcalls]
  · rw [hRm, hhold]
  · rw [hSm, hcalls]; rfl
  · rw [hSm, hcalls]
  · rw [hSm, hhold]
  · rw [hUm, hcalls]; rfl
  · rw [hUm, hcalls]
  · rw [hUm, hhold]
  · rw [hFm, hcalls]; rfl
  · rw [hFm, hcalls]
  · rw [hFm, hhold]

end Log
end ks
